import Mathlib

/-!
The VoxQwen MCP documentation page script (`static/mcp_docs.js`).

A shallow embedding of the page script: the document is a flat list of elements in
document order (each element knows its parent), event listeners are data attached to
elements, and the asynchronous parts (clipboard promise, timers, status request) are
explicit pending entries of the page state that the environment settles.
-/

namespace McpDocs

/-! ## Data model -/

/-- Click listeners the script registers with `addEventListener('click', ...)`.
`activateTab` is the arrow function of lines 9-21 (it closes over the two node lists
`tabs`, `tabContents` and over `tab`), `startStatusRefresh` the one of lines 115-120,
`stopStatusRefresh` the one of lines 125-130. -/
inductive Listener where
  | activateTab (tabs tabContents : List Nat) (tab : Nat)
  | startStatusRefresh
  | stopStatusRefresh
  deriving DecidableEq

/-- A DOM element, as far as the script reads or writes it. `parent` is the index of
`parentElement` in the document list; `textContent` is the text of a leaf element. -/
structure Element where
  tag : String
  id : Option String
  classList : List String
  dataTab : Option String
  parent : Option Nat
  textContent : String
  value : String
  style : List (String × String)
  listeners : List Listener
  deriving DecidableEq

/-- The three timer callbacks `copyCode` hands to `setTimeout`: lines 47-50, 65-68, 71-73. -/
inductive TimeoutCallback where
  | restoreOriginal (btn : Nat) (originalText : String)
  | restoreCopier (btn : Nat)
  | resetAfterError (btn : Nat)
  deriving DecidableEq

/-- A pending `setTimeout` entry. -/
structure Timeout where
  handle : Nat
  due : Nat
  callback : TimeoutCallback
  deriving DecidableEq

/-- A live `setInterval` entry; the callback is always `refreshStatus`. -/
structure Interval where
  handle : Nat
  period : Nat
  deriving DecidableEq

/-- A `navigator.clipboard.writeText(code)` promise that has not settled yet, with the
button captured by its `then`/`catch` continuations. -/
structure PendingWrite where
  btn : Nat
  code : String
  deriving DecidableEq

/-- Console output. -/
inductive LogEntry where
  | error (message detail : String)
  | log (message detail : String)
  deriving DecidableEq

/-- The page state the script runs against. -/
structure Page where
  elems : List Element
  hash : String
  clipboardApi : Bool
  statusRefreshInterval : Option Nat
  intervals : List Interval
  timeouts : List Timeout
  nextTimerId : Nat
  now : Nat
  clipboard : String
  pendingWrites : List PendingWrite
  execCommands : List String
  console : List LogEntry
  deriving DecidableEq

/-! ## DOM primitives -/

/-- The DOM operation `classList.add`. -/
def classListAdd (c : String) (cl : List String) : List String :=
  if c ∈ cl then cl else cl ++ [c]

/-- The DOM operation `classList.remove`. -/
def classListRemove (c : String) (cl : List String) : List String :=
  cl.filter (fun d => d != c)

/-- The DOM operation `classList.toggle`. -/
def classListToggle (c : String) (cl : List String) : List String :=
  if c ∈ cl then classListRemove c cl else cl ++ [c]

def Element.addClass (c : String) (e : Element) : Element :=
  { e with classList := classListAdd c e.classList }

def Element.removeClass (c : String) (e : Element) : Element :=
  { e with classList := classListRemove c e.classList }

def Element.toggleClass (c : String) (e : Element) : Element :=
  { e with classList := classListToggle c e.classList }

def Element.hasClass (c : String) (e : Element) : Bool :=
  decide (c ∈ e.classList)

def Element.setText (t : String) (e : Element) : Element :=
  { e with textContent := t }

def Element.addListener (l : Listener) (e : Element) : Element :=
  { e with listeners := e.listeners ++ [l] }

/-- The DOM operation `querySelectorAll`: the indices, in document order, of the elements matching `sel`. -/
def querySelectorAll (es : List Element) (sel : Element → Bool) : List Nat :=
  (List.range es.length).filter (fun i => match es[i]? with
    | some e => sel e
    | none => false)

/-- The DOM operation `querySelector`: the first match in document order. -/
def querySelector (es : List Element) (sel : Element → Bool) : Option Nat :=
  (querySelectorAll es sel).head?

/-- The DOM operation `document.getElementById`: the first element in document order bearing that id;
the empty string names no element. -/
def getElementById (es : List Element) (k : String) : Option Nat :=
  if k = "" then none else querySelector es (fun e => e.id == some k)

/-- Whether some ancestor (following `parent`) satisfies `sel`; `fuel` bounds the walk. -/
def hasAncestor (es : List Element) (sel : Element → Bool) : Nat → Option Nat → Bool
  | 0, _ => false
  | _ + 1, none => false
  | fuel + 1, some a =>
    match es[a]? with
    | none => false
    | some e => sel e || hasAncestor es sel fuel e.parent

/-- The selector `.tab`. -/
def selTab (e : Element) : Bool := e.hasClass "tab"

/-- The selector `.tab-content`. -/
def selTabContent (e : Element) : Bool := e.hasClass "tab-content"

/-- The selector `.tab[data-tab="k"]` (for a key `k` free of quotes and backslashes). -/
def selTabWithKey (k : String) (e : Element) : Bool :=
  e.hasClass "tab" && e.dataTab == some k

/-- The selector `.tab:not([data-tab="status"])`. -/
def selTabNotStatus (e : Element) : Bool :=
  e.hasClass "tab" && !(e.dataTab == some "status")

/-- The selector `#guide .tool-accordion`, evaluated for the element at index `i`. -/
def selGuideAccordion (es : List Element) (i : Nat) : Bool :=
  match es[i]? with
  | none => false
  | some e => e.hasClass "tool-accordion" &&
      hasAncestor es (fun a => a.id == some "guide") es.length e.parent

/-- The DOM operation `document.querySelector('#guide .tool-accordion')`. -/
def queryGuideAccordion (es : List Element) : Option Nat :=
  ((List.range es.length).filter (selGuideAccordion es)).head?

/-- The DOM operation `el.previousElementSibling`: the closest earlier element with the same parent. -/
def previousElementSibling (es : List Element) (i : Nat) : Option Nat :=
  match es[i]? with
  | none => none
  | some e =>
    match e.parent with
    | none => none
    | some par => ((List.range i).reverse).find? (fun j => match es[j]? with
        | some s => s.parent == some par
        | none => false)

/-! ## Timers -/

/-- JavaScript truthiness of the handle variable (`null` and `0` are falsy). -/
def truthy : Option Nat → Bool
  | none => false
  | some n => n != 0

/-- The DOM operation `setInterval(refreshStatus, period)`: returns the new handle. -/
def setInterval (period : Nat) (p : Page) : Nat × Page :=
  (p.nextTimerId,
   { p with intervals := p.intervals ++ [⟨p.nextTimerId, period⟩],
            nextTimerId := p.nextTimerId + 1 })

/-- The DOM operation `clearInterval(h)`; timeouts and intervals share one pool of handles. -/
def clearInterval (h : Nat) (p : Page) : Page :=
  { p with intervals := p.intervals.filter (fun t => t.handle != h),
           timeouts := p.timeouts.filter (fun t => t.handle != h) }

/-- The DOM operation `setTimeout(cb, delay)`. -/
def setTimeout (cb : TimeoutCallback) (delay : Nat) (p : Page) : Page :=
  { p with timeouts := p.timeouts ++ [⟨p.nextTimerId, p.now + delay, cb⟩],
           nextTimerId := p.nextTimerId + 1 }

/-! ## Tabs (lines 4-29, 109-132) -/

/-- The loop `nodes.forEach(n => n.classList.remove(c))`. -/
def removeClassEach (c : String) (nodes : List Nat) (es : List Element) : List Element :=
  nodes.foldl (fun acc n => acc.modify (Element.removeClass c) n) es

/-- The click listener of lines 9-21. -/
def activateTab (tabs tabContents : List Nat) (tab : Nat) (p : Page) : Page :=
  let es1 := removeClassEach "active" tabs p.elems
  let es2 := removeClassEach "active" tabContents es1
  let es3 := es2.modify (Element.addClass "active") tab
  let targetId : String := (match es3[tab]? with
    | some e => e.dataTab.getD "undefined"
    | none => "undefined")
  match getElementById es3 targetId with
  | some targetContent => { p with elems := es3.modify (Element.addClass "active") targetContent }
  | none => { p with elems := es3 }

/-- The click listener of lines 115-120. -/
def startStatusRefresh (p : Page) : Page :=
  if !truthy p.statusRefreshInterval then
    let r := setInterval 30000 p
    { r.2 with statusRefreshInterval := some r.1 }
  else p

/-- The click listener of lines 125-130. -/
def stopStatusRefresh (p : Page) : Page :=
  if truthy p.statusRefreshInterval then
    { clearInterval (p.statusRefreshInterval.getD 0) p with statusRefreshInterval := none }
  else p

def runListener (l : Listener) (p : Page) : Page :=
  match l with
  | .activateTab tabs tabContents tab => activateTab tabs tabContents tab p
  | .startStatusRefresh => startStatusRefresh p
  | .stopStatusRefresh => stopStatusRefresh p

/-- The click event reaches element `i`: the listeners registered on the element run in
registration order. -/
def dispatch (i : Nat) (p : Page) : Page :=
  match p.elems[i]? with
  | none => p
  | some e => e.listeners.foldl (fun q l => runListener l q) p

/-- The chain of ancestors from `par` upwards (following `parent`); `fuel` bounds the
walk. -/
def ancestors (es : List Element) : Nat → Option Nat → List Nat
  | 0, _ => []
  | _ + 1, none => []
  | fuel + 1, some a =>
    match es[a]? with
    | none => []
    | some e => a :: ancestors es fuel e.parent

/-- The ancestors of element `i`, the nearest first. -/
def ancestorsOf (es : List Element) (i : Nat) : List Nat :=
  match es[i]? with
  | none => []
  | some e => ancestors es es.length e.parent

/-- The propagation path of a click on element `i`: the target, then its ancestors. -/
def eventPath (es : List Element) (i : Nat) : List Nat :=
  match es[i]? with
  | none => []
  | some _ => i :: ancestorsOf es i

/-- A click on element `i` (by the user or by `tab.click()`). The listeners of lines 9,
115 and 125 are registered without the capture flag, so the event runs the target's
listeners and then bubbles through the ancestors, running theirs. -/
def click (i : Nat) (p : Page) : Page :=
  (eventPath p.elems i).foldl (fun q n => dispatch n q) p

/-- The loop `nodes.forEach(n => n.addEventListener('click', mk n))`. -/
def addListenerEach (mk : Nat → Listener) (nodes : List Nat) (es : List Element) :
    List Element :=
  nodes.foldl (fun acc n => acc.modify (Element.addListener (mk n)) n) es

/-- The first `DOMContentLoaded` listener (lines 4-29). -/
def initTabs (p : Page) : Page :=
  let tabs := querySelectorAll p.elems selTab
  let tabContents := querySelectorAll p.elems selTabContent
  let es1 := addListenerEach (fun tab => .activateTab tabs tabContents tab) tabs p.elems
  match queryGuideAccordion es1 with
  | some firstAccordion => { p with elems := es1.modify (Element.addClass "open") firstAccordion }
  | none => { p with elems := es1 }

/-- The string operation `s.replace('#', '')` on the characters of `s`: drops the first `#`. -/
def removeFirstHash : List Char → List Char
  | [] => []
  | c :: cs => if c = '#' then cs else c :: removeFirstHash cs

/-- The function `handleHashNavigation` (lines 81-89). -/
def handleHashNavigation (p : Page) : Page :=
  let hash := String.mk (removeFirstHash p.hash.data)
  if hash ≠ "" then
    match querySelector p.elems (selTabWithKey hash) with
    | some tab => click tab p
    | none => p
  else p

/-- The third `DOMContentLoaded` listener (lines 112-132). -/
def initStatusRefresh (p : Page) : Page :=
  let es1 := (match querySelector p.elems (selTabWithKey "status") with
    | some statusTab => p.elems.modify (Element.addListener .startStatusRefresh) statusTab
    | none => p.elems)
  let others := querySelectorAll es1 selTabNotStatus
  { p with elems := addListenerEach (fun _ => Listener.stopStatusRefresh) others es1 }

/-- The `DOMContentLoaded` event: its listeners run in registration order, which is
line 4, then line 93 (`handleHashNavigation`), then line 112. -/
def domContentLoaded (p : Page) : Page :=
  initStatusRefresh (handleHashNavigation (initTabs p))

/-- The `hashchange` event (line 92) after the fragment became `h`. -/
def hashChange (h : String) (p : Page) : Page :=
  handleHashNavigation { p with hash := h }

/-- The state in which the script starts on a document with markup `es` and fragment `h`:
no listener is registered yet, `statusRefreshInterval` is `null` (line 110), no timer runs. -/
def initialPage (es : List Element) (h : String) (clipboardApi : Bool) (firstTimerId : Nat) :
    Page :=
  { elems := es.map (fun e => { e with listeners := [] }), hash := h,
    clipboardApi := clipboardApi, statusRefreshInterval := none,
    intervals := [], timeouts := [], nextTimerId := firstTimerId, now := 0, clipboard := "",
    pendingWrites := [], execCommands := [], console := [] }

/-- A run of tab clicks. -/
def clicks (seq : List Nat) (p : Page) : Page :=
  seq.foldl (fun q i => click i q) p

/-! ## Accordions (lines 31-35) -/

/-- The function `toggleAccordion(header)`; reading `classList` of a null `parentElement` throws. -/
def toggleAccordion (header : Nat) (p : Page) : Except String Page :=
  match p.elems[header]? with
  | none => .error "TypeError"
  | some h =>
    match h.parent with
    | none => .error "TypeError"
    | some accordion =>
      .ok { p with elems := p.elems.modify (Element.toggleClass "open") accordion }

/-! ## Copy to clipboard (lines 37-78) -/

/-- The synchronous part of `copyCode(btn)` (lines 39-42): it reads the code, calls
`navigator.clipboard.writeText(code)` and attaches the continuations to the returned
promise. Reading `textContent` of a null sibling, or `writeText` of an undefined
`navigator.clipboard`, throws a `TypeError` out of `copyCode`. -/
def copyCode (btn : Nat) (p : Page) : Except String Page :=
  match previousElementSibling p.elems btn with
  | none => .error "TypeError"
  | some codeBlock =>
    let code : String := (match p.elems[codeBlock]? with
      | some c => c.textContent
      | none => "")
    if p.clipboardApi then
      .ok { p with pendingWrites := p.pendingWrites ++ [⟨btn, code⟩] }
    else .error "TypeError"

/-- The `then` continuation (lines 42-51). -/
def onWriteFulfilled (btn : Nat) (p : Page) : Page :=
  let originalText : String := (match p.elems[btn]? with
    | some b => b.textContent
    | none => "")
  let es := p.elems.modify (fun b => (b.setText "Copié !").addClass "copied") btn
  setTimeout (.restoreOriginal btn originalText) 2000 { p with elems := es }

/-- What `document.execCommand('copy')` does: it returns a success flag or throws. -/
inductive ExecOutcome where
  | returned (ok : Bool)
  | threw (error : String)
  deriving DecidableEq

/-- The `catch` continuation (lines 51-77). -/
def onWriteRejected (btn : Nat) (code err : String) (exec : ExecOutcome) (p : Page) : Page :=
  let p1 := { p with console := p.console ++ [LogEntry.error "Erreur de copie:" err] }
  let textarea : Element :=
    { tag := "textarea", id := none, classList := [], dataTab := none,
      parent := querySelector p1.elems (fun e => e.tag == "body"),
      textContent := "", value := code,
      style := [("position", "fixed"), ("opacity", "0")], listeners := [] }
  let node := p1.elems.length
  let p2 := { p1 with elems := p1.elems ++ [textarea] }
  let p3 := { p2 with execCommands := p2.execCommands ++ [code] }
  let p4 := (match exec with
    | .returned ok =>
      let q := { p3 with
        clipboard := if ok then code else p3.clipboard,
        elems := p3.elems.modify (fun b => (b.setText "Copié !").addClass "copied") btn }
      setTimeout (.restoreCopier btn) 2000 q
    | .threw _ =>
      let q := { p3 with elems := p3.elems.modify (Element.setText "Erreur") btn }
      setTimeout (.resetAfterError btn) 2000 q)
  { p4 with elems := p4.elems.eraseIdx node }

/-- The browser fulfils the `k`-th pending clipboard write: the clipboard now holds the
text and the `then` continuation runs. -/
def resolveWrite (k : Nat) (p : Page) : Page :=
  match p.pendingWrites[k]? with
  | none => p
  | some w =>
    onWriteFulfilled w.btn
      { p with pendingWrites := p.pendingWrites.eraseIdx k, clipboard := w.code }

/-- The browser rejects the `k`-th pending clipboard write with `err`; `exec` is what the
legacy copy command will do. -/
def rejectWrite (k : Nat) (err : String) (exec : ExecOutcome) (p : Page) : Page :=
  match p.pendingWrites[k]? with
  | none => p
  | some w =>
    onWriteRejected w.btn w.code err exec
      { p with pendingWrites := p.pendingWrites.eraseIdx k }

/-- The button a timer callback closes over. -/
def TimeoutCallback.target : TimeoutCallback → Nat
  | .restoreOriginal btn _ => btn
  | .restoreCopier btn => btn
  | .resetAfterError btn => btn

/-- What a timer callback does to its button: lines 48-49, 66-67, 72. -/
def TimeoutCallback.effect : TimeoutCallback → Element → Element
  | .restoreOriginal _ originalText => fun b => (b.setText originalText).removeClass "copied"
  | .restoreCopier _ => fun b => (b.setText "Copier").removeClass "copied"
  | .resetAfterError _ => fun b => b.setText "Copier"

/-- A timer callback runs. -/
def runTimeout (cb : TimeoutCallback) (p : Page) : Page :=
  { p with elems := p.elems.modify cb.effect cb.target }

/-- Time passes by `dt` ms: every timeout that is due by then fires, in order of due time
(earlier registration first among equal due times). The ticks of the status interval are
not part of it: their callback `refreshStatus` is modelled on its own below and touches
no element. -/
def advance (dt : Nat) (p : Page) : Page :=
  let now := p.now + dt
  let due := (p.timeouts.filter (fun t => t.due ≤ now)).insertionSort (fun a b => a.due ≤ b.due)
  let rest := p.timeouts.filter (fun t => !decide (t.due ≤ now))
  due.foldl (fun q t => runTimeout t.callback q) { p with now := now, timeouts := rest }

/-- Two `copyCode` invocations on the same button, both clipboard writes succeeding: the
first `then` continuation runs, `a` ms later the button is clicked again, `b` ms later the
second `then` continuation runs, and `e` more ms pass. An exception thrown by
`copyCode` ends the run. -/
def doubleCopy (btn a b e : Nat) (p : Page) : Except String Page :=
  match copyCode btn p with
  | .error err => .error err
  | .ok q1 =>
    match copyCode btn (advance a (resolveWrite p.pendingWrites.length q1)) with
    | .error err => .error err
    | .ok q2 => .ok (advance e (resolveWrite p.pendingWrites.length (advance b q2)))

/-- The same with the second click coming before the first `then` continuation runs;
`a` ms lie between the two continuations. -/
def doubleCopyEarly (btn a e : Nat) (p : Page) : Except String Page :=
  match copyCode btn p with
  | .error err => .error err
  | .ok q1 =>
    match copyCode btn q1 with
    | .error err => .error err
    | .ok q2 =>
      .ok (advance e (resolveWrite p.pendingWrites.length
        (advance a (resolveWrite p.pendingWrites.length q2))))

/-- The timeouts that fire when `dt` ms pass, in firing order. -/
def fired (dt : Nat) (p : Page) : List Timeout :=
  (p.timeouts.filter (fun t => t.due ≤ p.now + dt)).insertionSort (fun a b => a.due ≤ b.due)

/-! ## Status poll (lines 95-107) -/

/-- How the request of `refreshStatus` ends: `fetch` rejects, or a response arrives with
its `ok` flag and the outcome of `response.json()`. -/
inductive FetchOutcome where
  | rejected (error : String)
  | response (ok : Bool) (json : Except String String)

/-- The `try` block of `refreshStatus` (lines 98-103). -/
def refreshStatusTry (o : FetchOutcome) (p : Page) : Except String Page :=
  match o with
  | .rejected error => .error error
  | .response ok json =>
    if ok then
      match json with
      | .ok data => .ok { p with console := p.console ++ [.log "Status refreshed:" data] }
      | .error error => .error error
    else .ok p

/-- The function `refreshStatus` (lines 96-107): the result is how the returned promise settles. -/
def refreshStatus (o : FetchOutcome) (p : Page) : Except String Page :=
  match refreshStatusTry o p with
  | .ok q => .ok q
  | .error error =>
    .ok { p with console := p.console ++ [.error "Error refreshing status:" error] }

/-! ## Observations -/

def textAt (p : Page) (i : Nat) : Option String :=
  p.elems[i]?.map (fun e => e.textContent)

def classesAt (p : Page) (i : Nat) : List String :=
  (p.elems[i]?.map (fun e => e.classList)).getD []

/-- The callbacks of the timers still pending on button `btn`, in registration order. -/
def pendingOn (btn : Nat) (p : Page) : List TimeoutCallback :=
  (p.timeouts.filter (fun t => t.callback.target == btn)).map (fun t => t.callback)

/-- The button `btn`, first labelled `L`, seen `e` ms after the second `then` continuation
of a double copy whose two continuations ran `gap` ms apart. Before the first timer is due:
the confirmation with the `copied` class, both timers pending, the first restoring `L`, the
second restoring the confirmation. Between the two: the label `L`, `copied` removed, the
second timer pending. Once both are due: the confirmation again, `copied` removed, no timer
pending on the button. -/
def DoubleCopyOutcome (btn : Nat) (L : String) (gap e : Nat) (s : Page) : Prop :=
  (gap + e < 2000 →
    textAt s btn = some "Copié !" ∧ "copied" ∈ classesAt s btn ∧
    pendingOn btn s =
      [TimeoutCallback.restoreOriginal btn L, TimeoutCallback.restoreOriginal btn "Copié !"]) ∧
  (2000 ≤ gap + e → e < 2000 →
    textAt s btn = some L ∧ "copied" ∉ classesAt s btn ∧
    pendingOn btn s = [TimeoutCallback.restoreOriginal btn "Copié !"]) ∧
  (2000 ≤ e →
    textAt s btn = some "Copié !" ∧ textAt s btn ≠ some L ∧ "copied" ∉ classesAt s btn ∧
    pendingOn btn s = [])

/-- The tabs carrying the `active` class. -/
def activeTabs (p : Page) : List Nat :=
  querySelectorAll p.elems (fun e => e.hasClass "tab" && e.hasClass "active")

/-- The panels carrying the `active` class. -/
def activePanels (p : Page) : List Nat :=
  querySelectorAll p.elems (fun e => e.hasClass "tab-content" && e.hasClass "active")

/-- The accordions carrying the `open` class. -/
def openAccordions (es : List Element) : List Nat :=
  querySelectorAll es (fun e => e.hasClass "tool-accordion" && e.hasClass "open")

/-- The click listeners element `i` carries once `DOMContentLoaded` has been handled on a
document with markup `es`: the one of line 9 on every `.tab`, the one of line 115 on the
first `.tab[data-tab="status"]`, the one of line 125 on every `.tab:not([data-tab="status"])`. -/
def loadedListeners (es : List Element) (i : Nat) : List Listener :=
  (if i ∈ querySelectorAll es selTab then
    [Listener.activateTab (querySelectorAll es selTab) (querySelectorAll es selTabContent) i]
   else []) ++
  (if querySelector es (selTabWithKey "status") = some i then [Listener.startStatusRefresh]
   else []) ++
  (if i ∈ querySelectorAll es selTabNotStatus then [Listener.stopStatusRefresh] else [])

/-- What the tab logic reads of an element besides the `active` class. -/
def tabView (e : Element) : Bool × Bool × Option String × Option String :=
  (e.hasClass "tab", e.hasClass "tab-content", e.dataTab, e.id)

/-- What `#guide .tool-accordion` reads of an element. -/
def guideView (e : Element) : Bool × Option String × Option Nat :=
  (e.hasClass "tool-accordion", e.id, e.parent)

/-- Whether an element is an accordion, and whether it is open. -/
def accordionView (e : Element) : Bool × Bool :=
  (e.hasClass "tool-accordion", e.hasClass "open")

/-- The timer side of the page: the handle variable, the live intervals, the next id. -/
def timers (p : Page) : Option Nat × List Interval × Nat :=
  (p.statusRefreshInterval, p.intervals, p.nextTimerId)

/-- The handle variable and the live intervals agree: either the handle is `null` and no
interval is live, or the handle is a non-zero id and exactly that interval is live. -/
def TimerInv (p : Page) : Prop :=
  0 < p.nextTimerId ∧
    ((p.statusRefreshInterval = none ∧ p.intervals = []) ∨
     (∃ h, h ≠ 0 ∧ p.statusRefreshInterval = some h ∧ p.intervals = [⟨h, 30000⟩]))

/-- A page state reached from the markup `es` by `DOMContentLoaded` and tab clicks. -/
def Loaded (es : List Element) (p : Page) : Prop :=
  (∀ i : Nat,
    p.elems[i]?.map (fun e => e.listeners) = es[i]?.map (fun _ => loadedListeners es i)) ∧
  p.elems.map tabView = es.map tabView ∧
  p.elems.map (fun e => e.parent) = es.map (fun e => e.parent)

/-- Whether the `data-tab` key of tab `e` is the id by which the document finds a
`.tab-content` panel. -/
def tabTargetsPanel (es : List Element) (e : Element) : Bool :=
  match e.dataTab with
  | none => false
  | some k =>
    match getElementById es k with
    | none => false
    | some j =>
      match es[j]? with
      | none => false
      | some panel => panel.hasClass "tab-content"

/-- The `data-tab` keys of the tabs, in document order. -/
def tabKeys (es : List Element) : List (Option String) :=
  (es.filter selTab).map (fun e => e.dataTab)

/-- The DOM structure contract for tabs: every `.tab` element carries a `data-tab` key
that is the id of a `.tab-content` panel, and the keys are distinct. -/
def DomContract (es : List Element) : Prop :=
  (∀ e ∈ es, e.hasClass "tab" = true → tabTargetsPanel es e = true) ∧ (tabKeys es).Nodup

instance (es : List Element) : Decidable (DomContract es) := by
  unfold DomContract
  infer_instance

/-- No `.tab` element is itself a `.tab-content` panel. -/
def TabsNotPanels (es : List Element) : Prop :=
  ∀ e ∈ es, e.hasClass "tab" = true → e.hasClass "tab-content" = false

instance (es : List Element) : Decidable (TabsNotPanels es) := by
  unfold TabsNotPanels
  infer_instance

/-- No `.tab` element lies inside another `.tab` element. -/
def NoNestedTabs (es : List Element) : Prop :=
  ∀ i ∈ querySelectorAll es selTab, ∀ a ∈ ancestorsOf es i, a ∉ querySelectorAll es selTab

instance (es : List Element) : Decidable (NoNestedTabs es) := by
  unfold NoNestedTabs
  infer_instance

/-- The console entries `q` has beyond those of `p`. -/
def newEntries (p q : Page) : List LogEntry := q.console.drop p.console.length

def isErrorEntry : LogEntry → Bool
  | .error _ _ => true
  | .log _ _ => false

/-! ## A sample page -/

def mkEl (tag : String) (id : Option String) (cls : List String) (dataTab : Option String)
    (parent : Option Nat) (text : String) : Element :=
  { tag := tag, id := id, classList := cls, dataTab := dataTab, parent := parent,
    textContent := text, value := "", style := [], listeners := [] }

/-- A page with three tabs (`guide`, `tools`, `status`), two accordions in the guide
panel, the second of which is marked open in the markup, and a code block with its copy
button in the tools panel. -/
def sampleDoc : List Element :=
  [ mkEl "body" none [] none none "",
    mkEl "button" none ["tab", "active"] (some "guide") (some 0) "Guide",
    mkEl "button" none ["tab"] (some "tools") (some 0) "Outils",
    mkEl "button" none ["tab"] (some "status") (some 0) "Statut",
    mkEl "div" (some "guide") ["tab-content", "active"] none (some 0) "",
    mkEl "div" none ["tool-accordion"] none (some 4) "",
    mkEl "div" none ["tool-header"] none (some 5) "tts",
    mkEl "div" none ["tool-accordion", "open"] none (some 4) "",
    mkEl "div" none ["tool-header"] none (some 7) "clone",
    mkEl "div" (some "tools") ["tab-content"] none (some 0) "",
    mkEl "pre" none [] none (some 9) "hello()",
    mkEl "button" none ["copy-btn"] none (some 9) "Copier le code",
    mkEl "div" (some "status") ["tab-content"] none (some 0) "" ]

/-- The sample page once `DOMContentLoaded` has been handled, loaded without fragment. -/
def samplePage : Page := domContentLoaded (initialPage sampleDoc "" true 1)

/-- A page whose `guide` tab (element 2) lies inside its `status` tab (element 1). -/
def nestedDoc : List Element :=
  [ mkEl "body" none [] none none "",
    mkEl "div" none ["tab"] (some "status") (some 0) "Statut",
    mkEl "span" none ["tab"] (some "guide") (some 1) "Guide",
    mkEl "div" (some "status") ["tab-content"] none (some 0) "",
    mkEl "div" (some "guide") ["tab-content"] none (some 0) "" ]

/-- A page whose only tab (element 1) carries the class `tab-content` as well. -/
def bothDoc : List Element :=
  [ mkEl "body" none [] none none "",
    mkEl "div" none ["tab", "tab-content"] (some "guide") (some 0) "Guide",
    mkEl "div" (some "guide") ["tab-content"] none (some 0) "" ]

end McpDocs

namespace McpDocs

/-! ## Class lists -/

theorem mem_classListAdd (c d : String) (cl : List String) :
    d ∈ classListAdd c cl ↔ d = c ∨ d ∈ cl := by
  unfold classListAdd
  split
  · constructor
    · intro h; exact Or.inr h
    · rintro (h | h)
      · subst h; assumption
      · exact h
  · simp [or_comm]

theorem mem_classListRemove (c d : String) (cl : List String) :
    d ∈ classListRemove c cl ↔ d ∈ cl ∧ d ≠ c := by
  simp [classListRemove]

theorem mem_classListToggle (c d : String) (cl : List String) :
    d ∈ classListToggle c cl ↔ (d ≠ c ∧ d ∈ cl) ∨ (d = c ∧ c ∉ cl) := by
  unfold classListToggle
  split
  · rename_i h
    rw [mem_classListRemove]
    constructor
    · rintro ⟨h1, h2⟩; exact Or.inl ⟨h2, h1⟩
    · rintro (⟨h1, h2⟩ | ⟨_, h2⟩)
      · exact ⟨h2, h1⟩
      · exact absurd h h2
  · rename_i h
    simp only [List.mem_append, List.mem_singleton]
    constructor
    · rintro (h1 | h1)
      · refine Or.inl ⟨?_, h1⟩
        rintro rfl; exact h h1
      · exact Or.inr ⟨h1, h⟩
    · rintro (⟨_, h2⟩ | ⟨h1, _⟩)
      · exact Or.inl h2
      · exact Or.inr h1

/-! ## Queries -/

theorem mem_querySelectorAll (es : List Element) (sel : Element → Bool) (i : Nat) :
    i ∈ querySelectorAll es sel ↔ ∃ e, es[i]? = some e ∧ sel e = true := by
  unfold querySelectorAll
  rw [List.mem_filter, List.mem_range]
  constructor
  · rintro ⟨_, h⟩
    cases hi : es[i]? with
    | none => simp [hi] at h
    | some e => exact ⟨e, rfl, by simpa [hi] using h⟩
  · rintro ⟨e, he, hs⟩
    refine ⟨?_, by simp [he, hs]⟩
    by_contra hlt
    rw [List.getElem?_eq_none (by omega)] at he
    cases he

theorem nodup_querySelectorAll (es : List Element) (sel : Element → Bool) :
    (querySelectorAll es sel).Nodup :=
  (List.nodup_range _).filter _

theorem eq_singleton_of_nodup {l : List Nat} {i : Nat} (hn : l.Nodup)
    (hm : ∀ x, x ∈ l ↔ x = i) : l = [i] := by
  match l, hn, hm with
  | [], _, hm => exact absurd ((hm i).2 rfl) (List.not_mem_nil i)
  | [a], _, hm =>
    have := (hm a).1 (List.mem_singleton.2 rfl)
    rw [this]
  | a :: b :: t, hn, hm =>
    have ha := (hm a).1 (List.mem_cons_self _ _)
    have hb := (hm b).1 (List.mem_cons_of_mem _ (List.mem_cons_self _ _))
    rw [List.nodup_cons] at hn
    exact absurd (by rw [ha, hb]; exact List.mem_cons_self _ _) hn.1

theorem querySelectorAll_eq_singleton (es : List Element) (sel : Element → Bool) (i : Nat)
    (h : ∀ j, (∃ e, es[j]? = some e ∧ sel e = true) ↔ j = i) :
    querySelectorAll es sel = [i] :=
  eq_singleton_of_nodup (nodup_querySelectorAll es sel)
    (fun x => (mem_querySelectorAll es sel x).trans (h x))

/-- Queries see a document only through the view `g` their selector factors through. -/
theorem querySelectorAll_congr {β : Type} (g : Element → β) (sel : β → Bool)
    (es es' : List Element) (h : es.map g = es'.map g) :
    querySelectorAll es (fun e => sel (g e)) = querySelectorAll es' (fun e => sel (g e)) := by
  have hlen : es.length = es'.length := by
    have := congrArg List.length h
    simpa using this
  have hget : ∀ i : Nat, es[i]?.map g = es'[i]?.map g := by
    intro i
    rw [← List.getElem?_map, ← List.getElem?_map, h]
  unfold querySelectorAll
  rw [hlen]
  apply List.filter_congr
  intro i _
  have := hget i
  cases h1 : es[i]? <;> cases h2 : es'[i]? <;> simp_all

/-! ## Views preserved by the script -/

theorem map_modify_of_view {β : Type} (g : Element → β) (f : Element → Element)
    (h : ∀ e, g (f e) = g e) (n : Nat) (es : List Element) :
    (es.modify f n).map g = es.map g := by
  apply List.ext_getElem?
  intro i
  rw [List.getElem?_map, List.getElem?_map, List.getElem?_modify]
  cases es[i]? with
  | none => rfl
  | some e =>
    by_cases hn : n = i <;> simp [hn, h]

theorem map_foldl_modify_of_view {β : Type} (g : Element → β) (f : Nat → Element → Element)
    (h : ∀ n e, g (f n e) = g e) (nodes : List Nat) (es : List Element) :
    (nodes.foldl (fun acc n => acc.modify (f n) n) es).map g = es.map g := by
  induction nodes generalizing es with
  | nil => rfl
  | cons n ns ih =>
    rw [List.foldl_cons, ih, map_modify_of_view g (f n) (h n)]

theorem getElem?_removeClassEach (c : String) (nodes : List Nat) (es : List Element) (j : Nat) :
    (removeClassEach c nodes es)[j]? =
      es[j]?.map (fun e => if j ∈ nodes then e.removeClass c else e) := by
  unfold removeClassEach
  induction nodes generalizing es with
  | nil => simp
  | cons n ns ih =>
    rw [List.foldl_cons, ih, List.getElem?_modify]
    cases es[j]? with
    | none => rfl
    | some e =>
      by_cases hn : n = j
      · subst hn
        by_cases hm : n ∈ ns
        · simp [hm, Element.removeClass, classListRemove]
        · simp [hm]
      · have hn' : j ≠ n := fun h => hn h.symm
        simp [hn, hn']

theorem getElem?_addListenerEach (mk : Nat → Listener) (nodes : List Nat) (hn : nodes.Nodup)
    (es : List Element) (j : Nat) :
    (addListenerEach mk nodes es)[j]? =
      es[j]?.map (fun e => if j ∈ nodes then e.addListener (mk j) else e) := by
  unfold addListenerEach
  induction nodes generalizing es with
  | nil => simp
  | cons n ns ih =>
    rw [List.nodup_cons] at hn
    rw [List.foldl_cons, ih hn.2, List.getElem?_modify]
    cases es[j]? with
    | none => rfl
    | some e =>
      by_cases hj : n = j
      · subst hj
        simp [hn.1]
      · have hj' : j ≠ n := fun h => hj h.symm
        simp [hj, hj']

theorem hasClass_addClass (c d : String) (e : Element) :
    (e.addClass c).hasClass d = (decide (d = c) || e.hasClass d) := by
  simp only [Element.hasClass, Element.addClass, mem_classListAdd, Bool.decide_or]

theorem hasClass_removeClass (c d : String) (e : Element) :
    (e.removeClass c).hasClass d = (e.hasClass d && !decide (d = c)) := by
  simp only [Element.hasClass, Element.removeClass, mem_classListRemove, Bool.decide_and,
    decide_not, ne_eq]

theorem hasClass_toggleClass_of_ne (c d : String) (hne : d ≠ c) (e : Element) :
    (e.toggleClass c).hasClass d = e.hasClass d := by
  simp only [Element.hasClass, Element.toggleClass, mem_classListToggle]
  simp [hne]

theorem classesAt_eq (p : Page) (i : Nat) (e : Element) (h : p.elems[i]? = some e) :
    classesAt p i = e.classList := by
  simp [classesAt, h]

/-- C9: for a header that is a direct child of an accordion, `toggleAccordion(header)`
flips the accordion's `open` state, a second call restores the original state, and each
call leaves every other element (so every other accordion) and the active tabs and
panels as they were. -/
theorem C9_toggleAccordion_twice (p : Page) (header accordion : Nat) (h a : Element)
    (hh : p.elems[header]? = some h) (hp : h.parent = some accordion)
    (ha : p.elems[accordion]? = some a) :
    ∃ q r, toggleAccordion header p = .ok q ∧ toggleAccordion header q = .ok r ∧
      ("open" ∈ classesAt q accordion ↔ "open" ∉ classesAt p accordion) ∧
      ("open" ∈ classesAt r accordion ↔ "open" ∈ classesAt p accordion) ∧
      (∀ j, j ≠ accordion → q.elems[j]? = p.elems[j]? ∧ r.elems[j]? = q.elems[j]?) ∧
      (activeTabs q = activeTabs p ∧ activePanels q = activePanels p) ∧
      (activeTabs r = activeTabs q ∧ activePanels r = activePanels q) := by
  have key : ∀ (s : Page) (hd ac : Element), s.elems[header]? = some hd →
      hd.parent = some accordion → s.elems[accordion]? = some ac →
      ∃ t, toggleAccordion header s = .ok t ∧
        (∃ hd', t.elems[header]? = some hd' ∧ hd'.parent = some accordion) ∧
        t.elems[accordion]? = some (ac.toggleClass "open") ∧
        (∀ j, j ≠ accordion → t.elems[j]? = s.elems[j]?) ∧
        activeTabs t = activeTabs s ∧ activePanels t = activePanels s := by
    intro s hd ac h1 h2 h3
    refine ⟨{ s with elems := s.elems.modify (Element.toggleClass "open") accordion }, ?_, ?_,
      ?_, ?_, ?_, ?_⟩
    · simp [toggleAccordion, h1, h2]
    · simp only [List.getElem?_modify, h1, Option.map_eq_map, Option.map_some']
      by_cases hx : accordion = header
      · exact ⟨hd.toggleClass "open", by simp [hx], by simp [Element.toggleClass, h2]⟩
      · exact ⟨hd, by simp [hx], h2⟩
    · simp [List.getElem?_modify, h3]
    · intro j hj
      have hj' : ¬ accordion = j := fun e => hj e.symm
      simp only [List.getElem?_modify, hj', if_false]
      cases s.elems[j]? <;> rfl
    · have := querySelectorAll_congr (fun e => e.hasClass "tab" && e.hasClass "active") id
        (s.elems.modify (Element.toggleClass "open") accordion) s.elems
        (map_modify_of_view _ _ (fun e => by
          rw [hasClass_toggleClass_of_ne _ _ (by decide), hasClass_toggleClass_of_ne _ _ (by decide)]) _ _)
      simpa [activeTabs] using this
    · have := querySelectorAll_congr (fun e => e.hasClass "tab-content" && e.hasClass "active") id
        (s.elems.modify (Element.toggleClass "open") accordion) s.elems
        (map_modify_of_view _ _ (fun e => by
          rw [hasClass_toggleClass_of_ne _ _ (by decide), hasClass_toggleClass_of_ne _ _ (by decide)]) _ _)
      simpa [activePanels] using this
  obtain ⟨q, hq, ⟨hd', hq1, hq2⟩, hq3, hq4, hq5, hq6⟩ := key p h a hh hp ha
  obtain ⟨r, hr, _, hr3, hr4, hr5, hr6⟩ := key q hd' _ hq1 hq2 hq3
  refine ⟨q, r, hq, hr, ?_, ?_, ?_, ⟨hq5, hq6⟩, ⟨hr5, hr6⟩⟩
  · rw [classesAt_eq q _ _ hq3, classesAt_eq p _ _ ha]
    simp [Element.toggleClass, mem_classListToggle]
  · rw [classesAt_eq r _ _ hr3, classesAt_eq p _ _ ha]
    simp [Element.toggleClass, mem_classListToggle]
  · intro j hj
    exact ⟨hq4 j hj, hr4 j hj⟩

/-- C9 on the sample page: the header (element 6) of the first accordion (element 5). -/
theorem C9_witness :
    ∃ q r, toggleAccordion 6 samplePage = .ok q ∧ toggleAccordion 6 q = .ok r ∧
      ("open" ∈ classesAt q 5 ↔ "open" ∉ classesAt samplePage 5) ∧
      ("open" ∈ classesAt r 5 ↔ "open" ∈ classesAt samplePage 5) ∧
      (∀ j, j ≠ 5 → q.elems[j]? = samplePage.elems[j]? ∧ r.elems[j]? = q.elems[j]?) ∧
      (activeTabs q = activeTabs samplePage ∧ activePanels q = activePanels samplePage) ∧
      (activeTabs r = activeTabs q ∧ activePanels r = activePanels q) :=
  C9_toggleAccordion_twice samplePage 6 5
    (mkEl "div" none ["tool-header"] none (some 5) "tts")
    ((mkEl "div" none ["tool-accordion"] none (some 4) "").addClass "open")
    (by decide) (by decide) (by decide)

/-! ## Timers firing -/

theorem foldl_runTimeout (l : List Timeout) (s : Page) :
    l.foldl (fun q t => runTimeout t.callback q) s =
      { s with elems :=
          l.foldl (fun es t => es.modify t.callback.effect t.callback.target) s.elems } := by
  induction l generalizing s with
  | nil => rfl
  | cons t ts ih => rw [List.foldl_cons, ih]; rfl

theorem getElem?_foldl_effects (l : List Timeout) (es : List Element) (i : Nat) :
    (l.foldl (fun es t => es.modify t.callback.effect t.callback.target) es)[i]? =
      es[i]?.map (fun e =>
        (l.filter (fun t => t.callback.target == i)).foldl (fun e t => t.callback.effect e) e) := by
  induction l generalizing es with
  | nil => simp
  | cons t ts ih =>
    rw [List.foldl_cons, ih, List.getElem?_modify]
    cases es[i]? with
    | none => rfl
    | some e =>
      by_cases ht : t.callback.target = i
      · simp [ht, List.filter_cons]
      · simp [ht, List.filter_cons]

theorem advance_eq (dt : Nat) (p : Page) :
    advance dt p =
      { p with now := p.now + dt,
               timeouts := p.timeouts.filter (fun t => !decide (t.due ≤ p.now + dt)),
               elems := (fired dt p).foldl
                 (fun es t => es.modify t.callback.effect t.callback.target) p.elems } := by
  unfold advance fired
  simp only [foldl_runTimeout]

theorem getElem?_advance (dt : Nat) (p : Page) (i : Nat) :
    (advance dt p).elems[i]? = p.elems[i]?.map (fun e =>
      ((fired dt p).filter (fun t => t.callback.target == i)).foldl
        (fun e t => t.callback.effect e) e) := by
  rw [advance_eq]
  exact getElem?_foldl_effects _ _ _

/-- The fired timeouts aimed at `i` are, up to order, the due ones aimed at `i`. -/
theorem fired_filter_perm (dt : Nat) (p : Page) (i : Nat) :
    ((fired dt p).filter (fun t => t.callback.target == i)).Perm
      (p.timeouts.filter (fun t => decide (t.due ≤ p.now + dt) && t.callback.target == i)) := by
  unfold fired
  have h := (List.perm_insertionSort (fun a b : Timeout => a.due ≤ b.due)
    (p.timeouts.filter (fun t => t.due ≤ p.now + dt))).filter (fun t => t.callback.target == i)
  rw [List.filter_filter] at h
  refine h.trans (List.Perm.of_eq ?_)
  apply List.filter_congr
  intro t _
  rw [Bool.and_comm]

theorem advance_at_none (dt : Nat) (p : Page) (i : Nat)
    (h : p.timeouts.filter
      (fun t => decide (t.due ≤ p.now + dt) && t.callback.target == i) = []) :
    (advance dt p).elems[i]? = p.elems[i]? := by
  have hp := fired_filter_perm dt p i
  rw [h] at hp
  rw [getElem?_advance, List.Perm.eq_nil hp]
  cases p.elems[i]? <;> rfl

theorem advance_at_single (dt : Nat) (p : Page) (i : Nat) (t : Timeout)
    (h : p.timeouts.filter
      (fun t => decide (t.due ≤ p.now + dt) && t.callback.target == i) = [t]) :
    (advance dt p).elems[i]? = p.elems[i]?.map t.callback.effect := by
  have hp := fired_filter_perm dt p i
  rw [h] at hp
  rw [getElem?_advance, List.perm_singleton.1 hp]
  cases p.elems[i]? <;> rfl

theorem advance_at_pair (dt : Nat) (p : Page) (i : Nat) (t1 t2 : Timeout)
    (h : p.timeouts.filter
      (fun t => decide (t.due ≤ p.now + dt) && t.callback.target == i) = [t1, t2])
    (hle : t1.due ≤ t2.due) :
    (advance dt p).elems[i]? =
      p.elems[i]?.map (fun e => t2.callback.effect (t1.callback.effect e)) := by
  have hp := fired_filter_perm dt p i
  rw [h] at hp
  have hff : (p.timeouts.filter (fun t => decide (t.due ≤ p.now + dt))).filter
      (fun t => t.callback.target == i) = [t1, t2] := by
    rw [List.filter_filter, ← h]
    apply List.filter_congr
    intro t _
    rw [Bool.and_comm]
  have hsub : List.Sublist [t1, t2]
      (p.timeouts.filter (fun t => decide (t.due ≤ p.now + dt))) := by
    rw [← hff]
    exact List.filter_sublist _
  have hs : List.Sublist [t1, t2] (fired dt p) :=
    List.sublist_insertionSort (List.pairwise_pair.2 hle) hsub
  have hs2 := hs.filter (fun t => t.callback.target == i)
  have hid : [t1, t2].filter (fun t => t.callback.target == i) = [t1, t2] := by
    rw [← hff, List.filter_filter]
    simp
  rw [hid] at hs2
  have heq := hs2.eq_of_length (by rw [hp.length_eq])
  rw [getElem?_advance, ← heq]
  cases p.elems[i]? <;> rfl

@[simp] theorem advance_now (dt : Nat) (p : Page) : (advance dt p).now = p.now + dt := by
  rw [advance_eq]

@[simp] theorem advance_timeouts (dt : Nat) (p : Page) :
    (advance dt p).timeouts = p.timeouts.filter (fun t => !decide (t.due ≤ p.now + dt)) := by
  rw [advance_eq]

@[simp] theorem advance_pendingWrites (dt : Nat) (p : Page) :
    (advance dt p).pendingWrites = p.pendingWrites := by
  rw [advance_eq]

@[simp] theorem advance_clipboard (dt : Nat) (p : Page) :
    (advance dt p).clipboard = p.clipboard := by
  rw [advance_eq]

theorem advance_untouched (dt : Nat) (p : Page) (i : Nat)
    (h : ∀ t ∈ p.timeouts, t.callback.target ≠ i) :
    (advance dt p).elems[i]? = p.elems[i]? := by
  apply advance_at_none
  rw [List.filter_eq_nil_iff]
  intro t ht
  simp [h t ht]

theorem advance_free (dt : Nat) (p : Page) (i : Nat)
    (h : ∀ t ∈ p.timeouts, t.callback.target ≠ i) :
    ∀ t ∈ (advance dt p).timeouts, t.callback.target ≠ i := by
  intro t ht
  rw [advance_timeouts] at ht
  exact h t (List.mem_of_mem_filter ht)

theorem filter_target_eq_nil (ts : List Timeout) (i n : Nat)
    (h : ∀ t ∈ ts, t.callback.target ≠ i) :
    ts.filter (fun t => decide (t.due ≤ n) && t.callback.target == i) = [] := by
  rw [List.filter_eq_nil_iff]
  intro t ht
  simp [h t ht]

theorem textAt_eq (p : Page) (i : Nat) (e : Element) (h : p.elems[i]? = some e) :
    textAt p i = some e.textContent := by
  simp [textAt, h]

theorem exists_of_textAt (p : Page) (i : Nat) (s : String) (h : textAt p i = some s) :
    ∃ e, p.elems[i]? = some e ∧ e.textContent = s := by
  unfold textAt at h
  cases he : p.elems[i]? with
  | none => rw [he] at h; cases h
  | some e =>
    rw [he] at h
    exact ⟨e, rfl, by simpa using h⟩

theorem copyCode_ok (p : Page) (btn codeBlock : Nat) (code : String)
    (hsib : previousElementSibling p.elems btn = some codeBlock)
    (hcode : textAt p codeBlock = some code) (hapi : p.clipboardApi = true) :
    copyCode btn p = .ok { p with pendingWrites := p.pendingWrites ++ [⟨btn, code⟩] } := by
  obtain ⟨c, hc1, hc2⟩ := exists_of_textAt p codeBlock code hcode
  simp [copyCode, hsib, hc1, hc2, hapi]

theorem resolveWrite_eq (k : Nat) (s : Page) (w : PendingWrite) (b : Element)
    (hw : s.pendingWrites[k]? = some w) (hb : s.elems[w.btn]? = some b) :
    resolveWrite k s =
      { s with pendingWrites := s.pendingWrites.eraseIdx k, clipboard := w.code,
               elems := s.elems.modify (fun b => (b.setText "Copié !").addClass "copied") w.btn,
               timeouts := s.timeouts ++
                 [⟨s.nextTimerId, s.now + 2000, .restoreOriginal w.btn b.textContent⟩],
               nextTimerId := s.nextTimerId + 1 } := by
  simp [resolveWrite, onWriteFulfilled, setTimeout, hw, hb]

/-- C7: for a button labelled `L` whose preceding sibling is a code block, with no
pending label timer on that button, one `copyCode` whose clipboard write succeeds puts
exactly the code block's text on the clipboard, sets the label to `Copié !` with
the `copied` class, keeps it so until 2000 ms have passed, and from 2000 ms on the label
is `L` again and `copied` is removed. -/
theorem C7_copy_success_restores_label (p : Page) (btn codeBlock : Nat) (code L : String)
    (d dt : Nat)
    (hsib : previousElementSibling p.elems btn = some codeBlock)
    (hcode : textAt p codeBlock = some code)
    (hL : textAt p btn = some L)
    (hapi : p.clipboardApi = true)
    (hfree : ∀ t ∈ p.timeouts, t.callback.target ≠ btn)
    (hdt : 2000 ≤ dt) :
    ∃ q, copyCode btn p = .ok q ∧
      (resolveWrite p.pendingWrites.length (advance d q)).clipboard = code ∧
      textAt (resolveWrite p.pendingWrites.length (advance d q)) btn = some "Copié !" ∧
      "copied" ∈ classesAt (resolveWrite p.pendingWrites.length (advance d q)) btn ∧
      (∀ dt', dt' < 2000 →
        textAt (advance dt' (resolveWrite p.pendingWrites.length (advance d q))) btn
          = some "Copié !") ∧
      textAt (advance dt (resolveWrite p.pendingWrites.length (advance d q))) btn = some L ∧
      "copied" ∉ classesAt (advance dt (resolveWrite p.pendingWrites.length (advance d q))) btn := by
  obtain ⟨b, hb1, hb2⟩ := exists_of_textAt p btn L hL
  refine ⟨_, copyCode_ok p btn codeBlock code hsib hcode hapi, ?_⟩
  generalize hq : ({ p with pendingWrites := p.pendingWrites ++ [⟨btn, code⟩] } : Page) = q
  have hqt : q.timeouts = p.timeouts := by rw [← hq]
  have hqe : q.elems = p.elems := by rw [← hq]
  have hqw : q.pendingWrites = p.pendingWrites ++ [⟨btn, code⟩] := by rw [← hq]
  have hfree_q : ∀ t ∈ q.timeouts, t.callback.target ≠ btn := by rw [hqt]; exact hfree
  have hw : (advance d q).pendingWrites[p.pendingWrites.length]? = some ⟨btn, code⟩ := by
    rw [advance_pendingWrites, hqw]
    simp
  have hb : (advance d q).elems[btn]? = some b := by
    rw [advance_untouched d q btn hfree_q, hqe, hb1]
  have hr := resolveWrite_eq _ _ _ _ hw hb
  generalize resolveWrite p.pendingWrites.length (advance d q) = r at hr ⊢
  have hre : r.elems[btn]? = some ((b.setText "Copié !").addClass "copied") := by
    rw [hr]
    simp [List.getElem?_modify, hb]
  have hfilter : ∀ n, r.timeouts.filter
      (fun t => decide (t.due ≤ n) && t.callback.target == btn) =
      if (advance d q).now + 2000 ≤ n then
        [⟨(advance d q).nextTimerId, (advance d q).now + 2000, .restoreOriginal btn L⟩]
      else [] := by
    intro n
    rw [hr]
    simp only [List.filter_append]
    rw [filter_target_eq_nil _ _ _ (advance_free d q btn hfree_q), hb2]
    by_cases hn : (advance d q).now + 2000 ≤ n
    · simp [List.filter_cons, hn, TimeoutCallback.target]
    · simp [List.filter_cons, hn, TimeoutCallback.target]
  have hrnow : r.now = (advance d q).now := by rw [hr]
  refine ⟨by rw [hr], ?_, ?_, ?_, ?_, ?_⟩
  · rw [textAt_eq r btn _ hre]; rfl
  · rw [classesAt_eq r btn _ hre]
    simp [Element.addClass, Element.setText, mem_classListAdd]
  · intro dt' hdt'
    have h0 := hfilter (r.now + dt')
    rw [if_neg (by rw [hrnow]; omega)] at h0
    rw [textAt, advance_at_none dt' r btn h0, hre]
    rfl
  · have h0 := hfilter (r.now + dt)
    rw [if_pos (by rw [hrnow]; omega)] at h0
    rw [textAt, advance_at_single dt r btn _ h0, hre]
    rfl
  · have h0 := hfilter (r.now + dt)
    rw [if_pos (by rw [hrnow]; omega)] at h0
    rw [classesAt, advance_at_single dt r btn _ h0, hre]
    simp [TimeoutCallback.effect, Element.removeClass, mem_classListRemove]

/-- C7 on the sample page: the copy button (element 11) after the code block `hello()`. -/
theorem C7_witness :
    ∃ q, copyCode 11 samplePage = .ok q ∧
      (resolveWrite samplePage.pendingWrites.length (advance 0 q)).clipboard = "hello()" ∧
      textAt (resolveWrite samplePage.pendingWrites.length (advance 0 q)) 11 = some "Copié !" ∧
      "copied" ∈ classesAt (resolveWrite samplePage.pendingWrites.length (advance 0 q)) 11 ∧
      (∀ dt', dt' < 2000 →
        textAt (advance dt' (resolveWrite samplePage.pendingWrites.length (advance 0 q))) 11
          = some "Copié !") ∧
      textAt (advance 2000 (resolveWrite samplePage.pendingWrites.length (advance 0 q))) 11
        = some "Copier le code" ∧
      "copied" ∉
        classesAt (advance 2000 (resolveWrite samplePage.pendingWrites.length (advance 0 q))) 11 :=
  C7_copy_success_restores_label samplePage 11 10 "hello()" "Copier le code" 0 2000
    (by decide) (by decide) (by decide) (by decide) (by decide) (by decide)

theorem eraseIdx_modify_append (es : List Element) (x : Element) (f : Element → Element)
    (i : Nat) (hi : i < es.length) :
    ((es ++ [x]).modify f i).eraseIdx es.length = es.modify f i := by
  apply List.ext_getElem?
  intro j
  rw [List.getElem?_eraseIdx, List.getElem?_modify, List.getElem?_modify, List.getElem?_modify]
  by_cases hj : j < es.length
  · rw [if_pos hj, List.getElem?_append_left hj]
  · rw [if_neg hj]
    have h1 : ¬ i = j + 1 := by omega
    have h2 : ¬ i = j := by omega
    rw [List.getElem?_eq_none (l := es ++ [x]) (by simp; omega),
      List.getElem?_eq_none (l := es) (by omega)]
    rfl

theorem rejectWrite_returned_eq (k : Nat) (err : String) (ok : Bool) (s : Page)
    (w : PendingWrite) (b : Element)
    (hw : s.pendingWrites[k]? = some w) (hb : s.elems[w.btn]? = some b) :
    rejectWrite k err (.returned ok) s =
      { s with pendingWrites := s.pendingWrites.eraseIdx k,
               console := s.console ++ [.error "Erreur de copie:" err],
               execCommands := s.execCommands ++ [w.code],
               clipboard := if ok then w.code else s.clipboard,
               elems := s.elems.modify (fun b => (b.setText "Copié !").addClass "copied") w.btn,
               timeouts := s.timeouts ++ [⟨s.nextTimerId, s.now + 2000, .restoreCopier w.btn⟩],
               nextTimerId := s.nextTimerId + 1 } := by
  have hlt : w.btn < s.elems.length := by
    by_contra h
    rw [List.getElem?_eq_none (by omega)] at hb
    cases hb
  simp [rejectWrite, onWriteRejected, setTimeout, hw, eraseIdx_modify_append _ _ _ _ hlt]

/-- One pending timer on a button, due in `rem` ms: nothing happens to the button before
the timer is due, and from then on the button shows the timer's effect. -/
theorem single_timer (r : Page) (btn : Nat) (e : Element) (ts : List Timeout) (t : Timeout)
    (rem : Nat) (he : r.elems[btn]? = some e) (hts : r.timeouts = ts ++ [t])
    (hfree : ∀ a ∈ ts, a.callback.target ≠ btn) (htarget : t.callback.target = btn)
    (hdue : t.due = r.now + rem) :
    (∀ dt', dt' < rem → (advance dt' r).elems[btn]? = some e) ∧
    (∀ dt, rem ≤ dt → (advance dt r).elems[btn]? = some (t.callback.effect e)) := by
  have hfilter : ∀ n, r.timeouts.filter
      (fun a => decide (a.due ≤ n) && a.callback.target == btn) =
      if r.now + rem ≤ n then [t] else [] := by
    intro n
    rw [hts, List.filter_append, filter_target_eq_nil _ _ _ hfree]
    by_cases hn : r.now + rem ≤ n
    · simp [List.filter_cons, hn, htarget, hdue]
    · simp [List.filter_cons, hn, htarget, hdue]
  constructor
  · intro dt' hdt'
    have h0 := hfilter (r.now + dt')
    rw [if_neg (by omega)] at h0
    rw [advance_at_none dt' r btn h0, he]
  · intro dt hdt
    have h0 := hfilter (r.now + dt)
    rw [if_pos (by omega)] at h0
    rw [advance_at_single dt r btn _ h0, he]
    rfl

/-- C8 (as the code has it): when the clipboard write is rejected and the legacy copy
command returns, the fallback runs (the command is issued on the code text and the
synthetic textarea is gone afterwards), the label is `Copié !` until 2000 ms have passed,
and from 2000 ms on it is the literal `Copier`, whatever the pre-click label was. -/
theorem C8_fallback_restores_Copier (p : Page) (btn codeBlock : Nat) (code L err : String)
    (ok : Bool) (d dt : Nat)
    (hsib : previousElementSibling p.elems btn = some codeBlock)
    (hcode : textAt p codeBlock = some code)
    (hL : textAt p btn = some L)
    (hapi : p.clipboardApi = true)
    (hfree : ∀ t ∈ p.timeouts, t.callback.target ≠ btn)
    (hdt : 2000 ≤ dt) :
    ∃ q, copyCode btn p = .ok q ∧
      (rejectWrite p.pendingWrites.length err (.returned ok) (advance d q)).execCommands
        = p.execCommands ++ [code] ∧
      (rejectWrite p.pendingWrites.length err (.returned ok) (advance d q)).elems.length
        = p.elems.length ∧
      textAt (rejectWrite p.pendingWrites.length err (.returned ok) (advance d q)) btn
        = some "Copié !" ∧
      (∀ dt', dt' < 2000 →
        textAt (advance dt' (rejectWrite p.pendingWrites.length err (.returned ok)
          (advance d q))) btn = some "Copié !") ∧
      textAt (advance dt (rejectWrite p.pendingWrites.length err (.returned ok)
        (advance d q))) btn = some "Copier" ∧
      "copied" ∉ classesAt (advance dt (rejectWrite p.pendingWrites.length err (.returned ok)
        (advance d q))) btn := by
  obtain ⟨b, hb1, -⟩ := exists_of_textAt p btn L hL
  refine ⟨_, copyCode_ok p btn codeBlock code hsib hcode hapi, ?_⟩
  generalize hq : ({ p with pendingWrites := p.pendingWrites ++ [⟨btn, code⟩] } : Page) = q
  have hqt : q.timeouts = p.timeouts := by rw [← hq]
  have hqe : q.elems = p.elems := by rw [← hq]
  have hqx : q.execCommands = p.execCommands := by rw [← hq]
  have hqw : q.pendingWrites = p.pendingWrites ++ [⟨btn, code⟩] := by rw [← hq]
  have hfree_q : ∀ t ∈ q.timeouts, t.callback.target ≠ btn := by rw [hqt]; exact hfree
  have hw : (advance d q).pendingWrites[p.pendingWrites.length]? = some ⟨btn, code⟩ := by
    rw [advance_pendingWrites, hqw]
    simp
  have hb : (advance d q).elems[btn]? = some b := by
    rw [advance_untouched d q btn hfree_q, hqe, hb1]
  have hlen : (advance d q).elems.length = p.elems.length := by
    rw [advance_eq, ← hqe]
    simp only
    generalize fired d q = l
    generalize q.elems = es
    induction l generalizing es with
    | nil => rfl
    | cons t ts ih => rw [List.foldl_cons, ih, List.length_modify]
  have hx : (advance d q).execCommands = p.execCommands := by rw [advance_eq, ← hqx]
  have hr := rejectWrite_returned_eq _ err ok _ _ _ hw hb
  generalize rejectWrite p.pendingWrites.length err (.returned ok) (advance d q) = r at hr ⊢
  have hre : r.elems[btn]? = some ((b.setText "Copié !").addClass "copied") := by
    rw [hr]
    simp [List.getElem?_modify, hb]
  have hrt : r.timeouts = (advance d q).timeouts ++
      [⟨(advance d q).nextTimerId, r.now + 2000, .restoreCopier btn⟩] := by rw [hr]
  obtain ⟨h1, h2⟩ :=
    single_timer r btn _ _ _ 2000 hre hrt (advance_free d q btn hfree_q) rfl rfl
  refine ⟨by rw [hr, ← hx], by rw [hr]; simp [hlen], ?_, ?_, ?_, ?_⟩
  · rw [textAt_eq r btn _ hre]; rfl
  · intro dt' hdt'
    rw [textAt, h1 dt' hdt']; rfl
  · rw [textAt, h2 dt hdt]; rfl
  · rw [classesAt, h2 dt hdt]
    simp [TimeoutCallback.effect, Element.removeClass, mem_classListRemove]

/-- C8 on the sample page: the copy button (element 11), write rejected, legacy copy fine. -/
theorem C8_witness :
    ∃ q, copyCode 11 samplePage = .ok q ∧
      (rejectWrite samplePage.pendingWrites.length "NotAllowedError" (.returned true)
        (advance 0 q)).execCommands = samplePage.execCommands ++ ["hello()"] ∧
      (rejectWrite samplePage.pendingWrites.length "NotAllowedError" (.returned true)
        (advance 0 q)).elems.length = samplePage.elems.length ∧
      textAt (rejectWrite samplePage.pendingWrites.length "NotAllowedError" (.returned true)
        (advance 0 q)) 11 = some "Copié !" ∧
      (∀ dt', dt' < 2000 →
        textAt (advance dt' (rejectWrite samplePage.pendingWrites.length "NotAllowedError"
          (.returned true) (advance 0 q))) 11 = some "Copié !") ∧
      textAt (advance 2000 (rejectWrite samplePage.pendingWrites.length "NotAllowedError"
        (.returned true) (advance 0 q))) 11 = some "Copier" ∧
      "copied" ∉ classesAt (advance 2000 (rejectWrite samplePage.pendingWrites.length
        "NotAllowedError" (.returned true) (advance 0 q))) 11 :=
  C8_fallback_restores_Copier samplePage 11 10 "hello()" "Copier le code" "NotAllowedError"
    true 0 2000 (by decide) (by decide) (by decide) (by decide) (by decide) (by decide)

/-- C8, as stated, fails: on the sample page the button is labelled `Copier le code`; after
a rejected clipboard write, a successful legacy copy and 2000 ms, the label is `Copier`,
which is not the string `Copy`. -/
theorem C8_counterexample :
    textAt samplePage 11 = some "Copier le code" ∧
    (copyCode 11 samplePage).toOption.map (fun q =>
      textAt (advance 2000 (rejectWrite 0 "NotAllowedError" (.returned true) q)) 11)
      = some (some "Copier") ∧
    (copyCode 11 samplePage).toOption.map (fun q =>
      textAt (advance 2000 (rejectWrite 0 "NotAllowedError" (.returned true) q)) 11)
      ≠ some (some "Copy") := by
  decide

theorem previousElementSibling_congr (es es' : List Element) (i : Nat)
    (h : es.map (fun e => e.parent) = es'.map (fun e => e.parent)) :
    previousElementSibling es i = previousElementSibling es' i := by
  have hget : ∀ j : Nat, es[j]?.map (fun e => e.parent) = es'[j]?.map (fun e => e.parent) := by
    intro j
    rw [← List.getElem?_map, ← List.getElem?_map, h]
  have hfun : ∀ par : Nat, (fun j : Nat => match es[j]? with
        | some s => s.parent == some par
        | none => false) = (fun j : Nat => match es'[j]? with
        | some s => s.parent == some par
        | none => false) := by
    intro par
    funext j
    have := hget j
    cases h1 : es[j]? <;> cases h2 : es'[j]? <;> simp_all
  have hi := hget i
  unfold previousElementSibling
  cases h1 : es[i]? with
  | none =>
    cases h2 : es'[i]? with
    | none => rfl
    | some e' => rw [h1, h2] at hi; cases hi
  | some e =>
    cases h2 : es'[i]? with
    | none => rw [h1, h2] at hi; cases hi
    | some e' =>
      rw [h1, h2] at hi
      have hpar : e.parent = e'.parent := by simpa using hi
      simp only [hpar]
      cases e'.parent with
      | none => rfl
      | some par => simp only [hfun par]

theorem effect_parent (cb : TimeoutCallback) (e : Element) :
    (cb.effect e).parent = e.parent := by
  cases cb <;> rfl

theorem advance_parents (dt : Nat) (p : Page) :
    (advance dt p).elems.map (fun e => e.parent) = p.elems.map (fun e => e.parent) := by
  rw [advance_eq]
  simp only
  generalize fired dt p = l
  generalize p.elems = es
  induction l generalizing es with
  | nil => rfl
  | cons t ts ih =>
    rw [List.foldl_cons, ih, map_modify_of_view _ _ (effect_parent t.callback)]

theorem resolveWrite_parents (k : Nat) (p : Page) :
    (resolveWrite k p).elems.map (fun e => e.parent) = p.elems.map (fun e => e.parent) := by
  unfold resolveWrite
  cases p.pendingWrites[k]? with
  | none => rfl
  | some w =>
    simp only [onWriteFulfilled, setTimeout]
    exact map_modify_of_view (fun e => e.parent)
      (fun b => Element.addClass "copied" (Element.setText "Copié !" b)) (fun _ => rfl) _ _

theorem copyCode_ok_of_sibling (p : Page) (btn codeBlock : Nat)
    (hsib : previousElementSibling p.elems btn = some codeBlock)
    (hapi : p.clipboardApi = true) :
    ∃ code, copyCode btn p = .ok { p with pendingWrites := p.pendingWrites ++ [⟨btn, code⟩] } := by
  unfold copyCode
  rw [hsib]
  simp only [hapi, if_true]
  exact ⟨_, rfl⟩

/-- The `then` continuation of the write appended last: the label becomes the
confirmation and a timer restoring the label read at that moment is appended. -/
theorem resolve_last (s : Page) (btn : Nat) (b : Element) (ws : List PendingWrite)
    (code : String) (hw : s.pendingWrites = ws ++ [⟨btn, code⟩]) (hb : s.elems[btn]? = some b) :
    (resolveWrite ws.length s).pendingWrites = ws ∧
    (resolveWrite ws.length s).elems[btn]? = some ((b.setText "Copié !").addClass "copied") ∧
    (resolveWrite ws.length s).timeouts = s.timeouts ++
      [⟨s.nextTimerId, s.now + 2000, .restoreOriginal btn b.textContent⟩] ∧
    (resolveWrite ws.length s).now = s.now ∧
    (resolveWrite ws.length s).clipboardApi = s.clipboardApi := by
  have hk : s.pendingWrites[ws.length]? = some ⟨btn, code⟩ := by rw [hw]; simp
  rw [resolveWrite_eq ws.length s ⟨btn, code⟩ b hk hb]
  refine ⟨?_, ?_, rfl, rfl, rfl⟩
  · simp only [hw]
    rw [List.eraseIdx_append_of_length_le (Nat.le_refl _)]
    simp
  · simp [List.getElem?_modify, hb]

theorem filter_pending_append (ts : List Timeout) (t : Timeout) (n : Nat) (h : n < t.due) :
    (ts ++ [t]).filter (fun x => !decide (x.due ≤ n)) =
      ts.filter (fun x => !decide (x.due ≤ n)) ++ [t] := by
  rw [List.filter_append]
  simp [List.filter_cons, h]

theorem free_filter (ts : List Timeout) (btn : Nat) (f : Timeout → Bool)
    (h : ∀ t ∈ ts, t.callback.target ≠ btn) : ∀ t ∈ ts.filter f, t.callback.target ≠ btn :=
  fun t ht => h t (List.mem_of_mem_filter ht)

theorem advance_clipboardApi (dt : Nat) (p : Page) :
    (advance dt p).clipboardApi = p.clipboardApi := by
  rw [advance_eq]

/-- Two timers pending on a button, due in `rem1` and `rem2` ms: what the button holds
and which of its timers are still pending after `e` ms, before the first is due, between
the two, and once both are due. -/
theorem double_timer_phases (r : Page) (btn : Nat) (x : Element) (ts : List Timeout)
    (t1 t2 : Timeout) (rem1 rem2 : Nat) (hx : r.elems[btn]? = some x)
    (hts : r.timeouts = ts ++ [t1] ++ [t2])
    (hfree : ∀ a ∈ ts, a.callback.target ≠ btn)
    (h1 : t1.callback.target = btn) (h2 : t2.callback.target = btn)
    (hd1 : t1.due = r.now + rem1) (hd2 : t2.due = r.now + rem2) (hle : rem1 ≤ rem2) (e : Nat) :
    (e < rem1 → (advance e r).elems[btn]? = some x ∧
      pendingOn btn (advance e r) = [t1.callback, t2.callback]) ∧
    (rem1 ≤ e → e < rem2 → (advance e r).elems[btn]? = some (t1.callback.effect x) ∧
      pendingOn btn (advance e r) = [t2.callback]) ∧
    (rem2 ≤ e →
      (advance e r).elems[btn]? = some (t2.callback.effect (t1.callback.effect x)) ∧
      pendingOn btn (advance e r) = []) := by
  have hpend : pendingOn btn (advance e r) =
      (if rem1 ≤ e then [] else [t1.callback]) ++ (if rem2 ≤ e then [] else [t2.callback]) := by
    unfold pendingOn
    rw [advance_timeouts, hts]
    simp only [List.filter_append, List.map_append]
    have hnil : (ts.filter (fun t => !decide (t.due ≤ r.now + e))).filter
        (fun t => t.callback.target == btn) = [] := by
      rw [List.filter_eq_nil_iff]
      intro t ht
      simp [hfree t (List.mem_of_mem_filter ht)]
    rw [hnil]
    by_cases c1 : rem1 ≤ e <;> by_cases c2 : rem2 ≤ e <;>
      simp [List.filter_cons, hd1, hd2, h1, h2, c1, c2]
  have hfil : r.timeouts.filter
      (fun a => decide (a.due ≤ r.now + e) && a.callback.target == btn) =
      (if rem1 ≤ e then [t1] else []) ++ (if rem2 ≤ e then [t2] else []) := by
    rw [hts, List.filter_append, List.filter_append, filter_target_eq_nil _ _ _ hfree]
    by_cases c1 : rem1 ≤ e <;> by_cases c2 : rem2 ≤ e <;>
      simp [List.filter_cons, hd1, hd2, h1, h2, c1, c2]
  refine ⟨fun c => ?_, fun c1 c2 => ?_, fun c => ?_⟩
  · have c1 : ¬ rem1 ≤ e := by omega
    have c2 : ¬ rem2 ≤ e := by omega
    rw [if_neg c1, if_neg c2] at hfil hpend
    exact ⟨by rw [advance_at_none e r btn hfil, hx], hpend⟩
  · have c3 : ¬ rem2 ≤ e := by omega
    rw [if_pos c1, if_neg c3] at hfil hpend
    refine ⟨?_, hpend⟩
    rw [advance_at_single e r btn t1 hfil, hx]
    rfl
  · have c1 : rem1 ≤ e := by omega
    rw [if_pos c1, if_pos c] at hfil hpend
    refine ⟨?_, hpend⟩
    rw [advance_at_pair e r btn t1 t2 hfil (by omega), hx]
    rfl

theorem outcome_of_phases (btn : Nat) (L : String) (gap e rem1 : Nat) (s : Page) (x : Element)
    (t1 t2 : Timeout) (hne : L ≠ "Copié !") (hrem : gap + rem1 = 2000)
    (hxt : x.textContent = "Copié !") (hxc : "copied" ∈ x.classList)
    (hc1 : t1.callback = .restoreOriginal btn L)
    (hc2 : t2.callback = .restoreOriginal btn "Copié !")
    (h : (e < rem1 → s.elems[btn]? = some x ∧
        pendingOn btn s = [t1.callback, t2.callback]) ∧
      (rem1 ≤ e → e < 2000 → s.elems[btn]? = some (t1.callback.effect x) ∧
        pendingOn btn s = [t2.callback]) ∧
      (2000 ≤ e → s.elems[btn]? = some (t2.callback.effect (t1.callback.effect x)) ∧
        pendingOn btn s = [])) :
    DoubleCopyOutcome btn L gap e s := by
  rw [hc1, hc2] at h
  obtain ⟨ha, hb, hc⟩ := h
  refine ⟨fun c => ?_, fun c1 c2 => ?_, fun c => ?_⟩
  · obtain ⟨he, hp⟩ := ha (by omega)
    refine ⟨?_, ?_, hp⟩
    · rw [textAt, he]; simp [hxt]
    · rw [classesAt, he]; simpa using hxc
  · obtain ⟨he, hp⟩ := hb (by omega) c2
    refine ⟨?_, ?_, hp⟩
    · rw [textAt, he]; rfl
    · rw [classesAt, he]
      simp [TimeoutCallback.effect, Element.removeClass, mem_classListRemove]
  · obtain ⟨he, hp⟩ := hc c
    have ht : textAt s btn = some "Copié !" := by rw [textAt, he]; rfl
    refine ⟨ht, ?_, ?_, hp⟩
    · rw [ht]
      exact fun h => hne (Option.some.inj h).symm
    · rw [classesAt, he]
      simp [TimeoutCallback.effect, Element.removeClass, mem_classListRemove]

/-- C10: a button labelled `L` different from `Copié !` (no label timer pending on it) is
copied twice, both clipboard writes succeed, and the second `then` continuation runs less
than 2000 ms after the first (whether the second click came after or before the first
continuation). Then two timers are pending on the button, the first restoring `L`, the
second restoring `Copié !`, the text the second invocation read as its original. While
none has fired the label is `Copié !` with the `copied` class; once the first has fired
the label is `L` and `copied` is gone; once both have fired the label is `Copié !`
again, not `L`, `copied` is gone and no timer is pending on the button. -/
theorem C10_double_copy_keeps_confirmation (p : Page) (btn codeBlock : Nat) (L : String)
    (a b : Nat)
    (hsib : previousElementSibling p.elems btn = some codeBlock)
    (hL : textAt p btn = some L)
    (hapi : p.clipboardApi = true)
    (hfree : ∀ t ∈ p.timeouts, t.callback.target ≠ btn)
    (hne : L ≠ "Copié !") (hab : a + b < 2000) :
    (∀ e, ∃ s, doubleCopy btn a b e p = .ok s ∧ DoubleCopyOutcome btn L (a + b) e s) ∧
    (∀ e, ∃ s, doubleCopyEarly btn a e p = .ok s ∧ DoubleCopyOutcome btn L a e s) := by
  obtain ⟨b0, hb1, hb2⟩ := exists_of_textAt p btn L hL
  obtain ⟨code1, hc1⟩ := copyCode_ok_of_sibling p btn codeBlock hsib hapi
  generalize hq1 : ({ p with pendingWrites := p.pendingWrites ++ [⟨btn, code1⟩] } : Page) = q1
    at hc1
  have q1w : q1.pendingWrites = p.pendingWrites ++ [⟨btn, code1⟩] := by rw [← hq1]
  have q1e : q1.elems = p.elems := by rw [← hq1]
  have q1t : q1.timeouts = p.timeouts := by rw [← hq1]
  have q1a : q1.clipboardApi = true := by rw [← hq1]; exact hapi
  constructor
  · -- second click after the first continuation
    intro e
    unfold doubleCopy
    rw [hc1]
    simp only []
    obtain ⟨r1w, r1e, r1t, r1n, r1a⟩ :=
      resolve_last q1 btn b0 p.pendingWrites code1 q1w (by rw [q1e]; exact hb1)
    have r1p := resolveWrite_parents p.pendingWrites.length q1
    generalize resolveWrite p.pendingWrites.length q1 = r1 at r1w r1e r1t r1n r1a r1p ⊢
    rw [q1t] at r1t
    have hfr1 := single_timer r1 btn _ p.timeouts _ 2000 r1e r1t hfree rfl (by rw [r1n])
    have s1e := hfr1.1 a (by omega)
    have s1t : (advance a r1).timeouts =
        p.timeouts.filter (fun x => !decide (x.due ≤ r1.now + a)) ++
          [⟨q1.nextTimerId, q1.now + 2000, .restoreOriginal btn b0.textContent⟩] := by
      rw [advance_timeouts, r1t, filter_pending_append _ _ _ (by simp only [r1n]; omega)]
    have s1w : (advance a r1).pendingWrites = p.pendingWrites := by
      rw [advance_pendingWrites, r1w]
    have s1a : (advance a r1).clipboardApi = true := by rw [advance_clipboardApi, r1a, q1a]
    have s1n : (advance a r1).now = q1.now + a := by rw [advance_now, r1n]
    have s1s : previousElementSibling (advance a r1).elems btn = some codeBlock := by
      rw [previousElementSibling_congr _ p.elems btn
        (by rw [advance_parents, r1p, q1e])]
      exact hsib
    obtain ⟨code2, hc2⟩ := copyCode_ok_of_sibling (advance a r1) btn codeBlock s1s s1a
    generalize advance a r1 = s1 at s1e s1t s1w s1a s1n s1s hc2 ⊢
    generalize hq2 : ({ s1 with pendingWrites := s1.pendingWrites ++ [⟨btn, code2⟩] } : Page)
      = q2 at hc2
    rw [hc2]
    simp only []
    have q2w : q2.pendingWrites = p.pendingWrites ++ [⟨btn, code2⟩] := by rw [← hq2, ← s1w]
    have q2e : q2.elems[btn]? = some ((b0.setText "Copié !").addClass "copied") := by
      rw [← hq2]; exact s1e
    have q2t : q2.timeouts = p.timeouts.filter (fun x => !decide (x.due ≤ r1.now + a)) ++
          [⟨q1.nextTimerId, q1.now + 2000, .restoreOriginal btn b0.textContent⟩] := by
      rw [← hq2]; exact s1t
    have q2n : q2.now = q1.now + a := by rw [← hq2]; exact s1n
    have hfree2 := free_filter p.timeouts btn (fun x => !decide (x.due ≤ r1.now + a)) hfree
    have hfq2 := single_timer q2 btn _ _ _ (2000 - a) q2e q2t hfree2 rfl
      (by simp only [q2n]; omega)
    have s2e := hfq2.1 b (by omega)
    have s2t : (advance b q2).timeouts =
        (p.timeouts.filter (fun x => !decide (x.due ≤ r1.now + a))).filter
          (fun x => !decide (x.due ≤ q2.now + b)) ++
          [⟨q1.nextTimerId, q1.now + 2000, .restoreOriginal btn b0.textContent⟩] := by
      rw [advance_timeouts, q2t, filter_pending_append _ _ _ (by simp only [q2n]; omega)]
    have s2w : (advance b q2).pendingWrites = p.pendingWrites ++ [⟨btn, code2⟩] := by
      rw [advance_pendingWrites, q2w]
    have s2n : (advance b q2).now = q1.now + a + b := by rw [advance_now, q2n]
    generalize advance b q2 = s2 at s2e s2t s2w s2n ⊢
    obtain ⟨-, r2e, r2t, r2n, -⟩ := resolve_last s2 btn _ p.pendingWrites code2 s2w s2e
    rw [s2t] at r2t
    have hph := double_timer_phases (resolveWrite p.pendingWrites.length s2) btn _ _ _ _
      (2000 - (a + b)) 2000 r2e r2t (free_filter _ btn _ hfree2) rfl rfl
      (by simp only [r2n, s2n]; omega) (by simp only [r2n]) (by omega) e
    refine ⟨advance e (resolveWrite p.pendingWrites.length s2), rfl, ?_⟩
    exact outcome_of_phases btn L (a + b) e (2000 - (a + b)) _ _ _ _ hne (by omega) rfl
      (by simp [Element.addClass, Element.setText, mem_classListAdd])
      (by simp only [hb2]) rfl hph
  · -- second click before the first continuation
    intro e
    unfold doubleCopyEarly
    rw [hc1]
    simp only []
    have q1s : previousElementSibling q1.elems btn = some codeBlock := by rw [q1e]; exact hsib
    obtain ⟨code2, hc2⟩ := copyCode_ok_of_sibling q1 btn codeBlock q1s q1a
    generalize hq2 : ({ q1 with pendingWrites := q1.pendingWrites ++ [⟨btn, code2⟩] } : Page)
      = q2 at hc2
    rw [hc2]
    simp only []
    have q2w : q2.pendingWrites = p.pendingWrites ++ [⟨btn, code1⟩, ⟨btn, code2⟩] := by
      rw [← hq2]; simp [q1w]
    have q2e : q2.elems[btn]? = some b0 := by rw [← hq2]; simp only [q1e]; exact hb1
    have q2t : q2.timeouts = p.timeouts := by rw [← hq2]; exact q1t
    have hk : q2.pendingWrites[p.pendingWrites.length]? = some ⟨btn, code1⟩ := by
      rw [q2w, List.getElem?_append_right (Nat.le_refl _)]
      simp
    have hr1 := resolveWrite_eq p.pendingWrites.length q2 ⟨btn, code1⟩ b0 hk q2e
    generalize resolveWrite p.pendingWrites.length q2 = r1 at hr1 ⊢
    have r1w : r1.pendingWrites = p.pendingWrites ++ [⟨btn, code2⟩] := by
      rw [hr1]
      simp only [q2w]
      rw [List.eraseIdx_append_of_length_le (Nat.le_refl _)]
      simp
    have r1e : r1.elems[btn]? = some ((b0.setText "Copié !").addClass "copied") := by
      rw [hr1]; simp [List.getElem?_modify, q2e]
    have r1t : r1.timeouts = p.timeouts ++
        [⟨q2.nextTimerId, q2.now + 2000, .restoreOriginal btn b0.textContent⟩] := by
      rw [hr1]; simp only [q2t]
    have r1n : r1.now = q2.now := by rw [hr1]
    have hfr1 := single_timer r1 btn _ p.timeouts _ 2000 r1e r1t hfree rfl (by rw [r1n])
    have s1e := hfr1.1 a (by omega)
    have s1t : (advance a r1).timeouts =
        p.timeouts.filter (fun x => !decide (x.due ≤ r1.now + a)) ++
          [⟨q2.nextTimerId, q2.now + 2000, .restoreOriginal btn b0.textContent⟩] := by
      rw [advance_timeouts, r1t, filter_pending_append _ _ _ (by simp only [r1n]; omega)]
    have s1w : (advance a r1).pendingWrites = p.pendingWrites ++ [⟨btn, code2⟩] := by
      rw [advance_pendingWrites, r1w]
    have s1n : (advance a r1).now = q2.now + a := by rw [advance_now, r1n]
    generalize advance a r1 = s1 at s1e s1t s1w s1n ⊢
    obtain ⟨-, r2e, r2t, r2n, -⟩ := resolve_last s1 btn _ p.pendingWrites code2 s1w s1e
    rw [s1t] at r2t
    have hph := double_timer_phases (resolveWrite p.pendingWrites.length s1) btn _ _ _ _
      (2000 - a) 2000 r2e r2t (free_filter _ btn _ hfree) rfl rfl
      (by simp only [r2n, s1n]; omega) (by simp only [r2n]) (by omega) e
    refine ⟨advance e (resolveWrite p.pendingWrites.length s1), rfl, ?_⟩
    exact outcome_of_phases btn L a e (2000 - a) _ _ _ _ hne (by omega) rfl
      (by simp [Element.addClass, Element.setText, mem_classListAdd])
      (by simp only [hb2]) rfl hph

/-- C10 on the sample page: the copy button clicked twice, 1000 ms between the
continuations, seen 500, 1500 and 2000 ms after the second one. -/
theorem C10_witness :
    (∃ s, doubleCopy 11 500 500 500 samplePage = .ok s ∧
      DoubleCopyOutcome 11 "Copier le code" (500 + 500) 500 s) ∧
    (∃ s, doubleCopy 11 500 500 1500 samplePage = .ok s ∧
      DoubleCopyOutcome 11 "Copier le code" (500 + 500) 1500 s) ∧
    (∃ s, doubleCopy 11 500 500 2000 samplePage = .ok s ∧
      DoubleCopyOutcome 11 "Copier le code" (500 + 500) 2000 s) ∧
    (∃ s, doubleCopyEarly 11 500 2000 samplePage = .ok s ∧
      DoubleCopyOutcome 11 "Copier le code" 500 2000 s) :=
  ⟨(C10_double_copy_keeps_confirmation samplePage 11 10 "Copier le code" 500 500
      (by decide) (by decide) (by decide) (by decide) (by decide) (by decide)).1 500,
   (C10_double_copy_keeps_confirmation samplePage 11 10 "Copier le code" 500 500
      (by decide) (by decide) (by decide) (by decide) (by decide) (by decide)).1 1500,
   (C10_double_copy_keeps_confirmation samplePage 11 10 "Copier le code" 500 500
      (by decide) (by decide) (by decide) (by decide) (by decide) (by decide)).1 2000,
   (C10_double_copy_keeps_confirmation samplePage 11 10 "Copier le code" 500 500
      (by decide) (by decide) (by decide) (by decide) (by decide) (by decide)).2 2000⟩

theorem removeClassEach_view {β : Type} (g : Element → β) (c : String)
    (h : ∀ e, g (e.removeClass c) = g e) (nodes : List Nat) (es : List Element) :
    (removeClassEach c nodes es).map g = es.map g :=
  map_foldl_modify_of_view g (fun _ => Element.removeClass c) (fun _ => h) nodes es

theorem addListenerEach_view {β : Type} (g : Element → β) (mk : Nat → Listener)
    (h : ∀ l e, g (e.addListener l) = g e) (nodes : List Nat) (es : List Element) :
    (addListenerEach mk nodes es).map g = es.map g :=
  map_foldl_modify_of_view g (fun n => Element.addListener (mk n)) (fun n => h (mk n)) nodes es

theorem activateTab_view {β : Type} (g : Element → β)
    (hadd : ∀ e, g (e.addClass "active") = g e) (hrem : ∀ e, g (e.removeClass "active") = g e)
    (tabs tabContents : List Nat) (tab : Nat) (p : Page) :
    (activateTab tabs tabContents tab p).elems.map g = p.elems.map g := by
  have h3 : ((removeClassEach "active" tabContents
      (removeClassEach "active" tabs p.elems)).modify (Element.addClass "active") tab).map g
      = p.elems.map g := by
    rw [map_modify_of_view g _ hadd, removeClassEach_view g _ hrem, removeClassEach_view g _ hrem]
  unfold activateTab
  simp only []
  split
  · simp only []
    rw [map_modify_of_view g _ hadd, h3]
  · exact h3

theorem startStatusRefresh_elems (p : Page) : (startStatusRefresh p).elems = p.elems := by
  unfold startStatusRefresh
  split <;> rfl

theorem stopStatusRefresh_elems (p : Page) : (stopStatusRefresh p).elems = p.elems := by
  unfold stopStatusRefresh
  split <;> rfl

theorem runListener_view {β : Type} (g : Element → β)
    (hadd : ∀ e, g (e.addClass "active") = g e) (hrem : ∀ e, g (e.removeClass "active") = g e)
    (l : Listener) (p : Page) : (runListener l p).elems.map g = p.elems.map g := by
  cases l with
  | activateTab tabs tabContents tab => exact activateTab_view g hadd hrem tabs tabContents tab p
  | startStatusRefresh => simp only [runListener, startStatusRefresh_elems]
  | stopStatusRefresh => simp only [runListener, stopStatusRefresh_elems]

theorem foldl_runListener_view {β : Type} (g : Element → β)
    (hadd : ∀ e, g (e.addClass "active") = g e) (hrem : ∀ e, g (e.removeClass "active") = g e)
    (ls : List Listener) (p : Page) :
    (ls.foldl (fun q l => runListener l q) p).elems.map g = p.elems.map g := by
  induction ls generalizing p with
  | nil => rfl
  | cons l ls ih => rw [List.foldl_cons, ih, runListener_view g hadd hrem]

theorem dispatch_view {β : Type} (g : Element → β)
    (hadd : ∀ e, g (e.addClass "active") = g e) (hrem : ∀ e, g (e.removeClass "active") = g e)
    (i : Nat) (p : Page) : (dispatch i p).elems.map g = p.elems.map g := by
  unfold dispatch
  split
  · rfl
  · exact foldl_runListener_view g hadd hrem _ p

theorem foldl_dispatch_view {β : Type} (g : Element → β)
    (hadd : ∀ e, g (e.addClass "active") = g e) (hrem : ∀ e, g (e.removeClass "active") = g e)
    (path : List Nat) (p : Page) :
    (path.foldl (fun q n => dispatch n q) p).elems.map g = p.elems.map g := by
  induction path generalizing p with
  | nil => rfl
  | cons n path ih => rw [List.foldl_cons, ih, dispatch_view g hadd hrem]

theorem click_view {β : Type} (g : Element → β)
    (hadd : ∀ e, g (e.addClass "active") = g e) (hrem : ∀ e, g (e.removeClass "active") = g e)
    (i : Nat) (p : Page) : (click i p).elems.map g = p.elems.map g :=
  foldl_dispatch_view g hadd hrem _ p

theorem handleHashNavigation_view {β : Type} (g : Element → β)
    (hadd : ∀ e, g (e.addClass "active") = g e) (hrem : ∀ e, g (e.removeClass "active") = g e)
    (p : Page) : (handleHashNavigation p).elems.map g = p.elems.map g := by
  unfold handleHashNavigation
  simp only []
  split
  · split
    · exact click_view g hadd hrem _ p
    · rfl
  · rfl

theorem initStatusRefresh_view {β : Type} (g : Element → β)
    (h : ∀ l e, g (e.addListener l) = g e) (p : Page) :
    (initStatusRefresh p).elems.map g = p.elems.map g := by
  unfold initStatusRefresh
  simp only []
  rw [addListenerEach_view g _ h]
  split
  · exact map_modify_of_view g _ (h _) _ _
  · rfl

theorem querySelectorAll_of_view {β : Type} (g : Element → β) (sel : Element → Bool)
    (sel' : β → Bool) (hsel : ∀ e, sel e = sel' (g e)) (es es' : List Element)
    (h : es.map g = es'.map g) : querySelectorAll es sel = querySelectorAll es' sel := by
  have : sel = fun e => sel' (g e) := funext hsel
  rw [this]
  exact querySelectorAll_congr g sel' es es' h

theorem getElem?_of_view {β : Type} (g : Element → β) (es es' : List Element)
    (h : es.map g = es'.map g) (i : Nat) : es[i]?.map g = es'[i]?.map g := by
  rw [← List.getElem?_map, ← List.getElem?_map, h]

theorem exists_of_view {β : Type} (g : Element → β) (es es' : List Element)
    (h : es.map g = es'.map g) (i : Nat) (P : β → Prop) :
    (∃ e, es[i]? = some e ∧ P (g e)) ↔ (∃ e, es'[i]? = some e ∧ P (g e)) := by
  have hi := getElem?_of_view g es es' h i
  cases h1 : es[i]? with
  | none =>
    cases h2 : es'[i]? with
    | none => simp
    | some e' => rw [h1, h2] at hi; cases hi
  | some e =>
    cases h2 : es'[i]? with
    | none => rw [h1, h2] at hi; cases hi
    | some e' =>
      rw [h1, h2] at hi
      have hg : g e = g e' := by simpa using hi
      simp [hg]

theorem hasAncestor_congr (es es' : List Element)
    (h : es.map guideView = es'.map guideView) (fuel : Nat) (par : Option Nat) :
    hasAncestor es (fun a => a.id == some "guide") fuel par =
      hasAncestor es' (fun a => a.id == some "guide") fuel par := by
  induction fuel generalizing par with
  | zero => rfl
  | succ n ih =>
    cases par with
    | none => rfl
    | some a =>
      have hi := getElem?_of_view guideView es es' h a
      unfold hasAncestor
      cases h1 : es[a]? with
      | none =>
        cases h2 : es'[a]? with
        | none => rfl
        | some e' => rw [h1, h2] at hi; cases hi
      | some e =>
        cases h2 : es'[a]? with
        | none => rw [h1, h2] at hi; cases hi
        | some e' =>
          rw [h1, h2] at hi
          have hg : guideView e = guideView e' := by simpa using hi
          simp only [guideView, Prod.mk.injEq] at hg
          simp only [hg.2.1, hg.2.2, ih]

theorem queryGuideAccordion_congr (es es' : List Element)
    (h : es.map guideView = es'.map guideView) :
    queryGuideAccordion es = queryGuideAccordion es' := by
  have hlen : es.length = es'.length := by
    have := congrArg List.length h
    simpa using this
  have hsel : selGuideAccordion es = selGuideAccordion es' := by
    funext i
    have hi := getElem?_of_view guideView es es' h i
    unfold selGuideAccordion
    cases h1 : es[i]? with
    | none =>
      cases h2 : es'[i]? with
      | none => rfl
      | some e' => rw [h1, h2] at hi; cases hi
    | some e =>
      cases h2 : es'[i]? with
      | none => rw [h1, h2] at hi; cases hi
      | some e' =>
        rw [h1, h2] at hi
        have hg : guideView e = guideView e' := by simpa using hi
        simp only [guideView, Prod.mk.injEq] at hg
        simp only [hg.1, hg.2.2, hlen, hasAncestor_congr es es' h]
  unfold queryGuideAccordion
  rw [hsel, hlen]

theorem initialPage_view {β : Type} (g : Element → β)
    (h : ∀ e : Element, g { e with listeners := [] } = g e)
    (es : List Element) (hash : String) (api : Bool) (t0 : Nat) :
    (initialPage es hash api t0).elems.map g = es.map g := by
  simp only [initialPage, List.map_map]
  apply List.map_congr_left
  intro e _
  exact h e

theorem initTabs_elems (p : Page) :
    (initTabs p).elems =
      match queryGuideAccordion p.elems with
      | some first =>
        (addListenerEach (fun tab => .activateTab (querySelectorAll p.elems selTab)
          (querySelectorAll p.elems selTabContent) tab)
          (querySelectorAll p.elems selTab) p.elems).modify (Element.addClass "open") first
      | none =>
        addListenerEach (fun tab => .activateTab (querySelectorAll p.elems selTab)
          (querySelectorAll p.elems selTabContent) tab)
          (querySelectorAll p.elems selTab) p.elems := by
  have hq : queryGuideAccordion (addListenerEach
      (fun tab => .activateTab (querySelectorAll p.elems selTab)
          (querySelectorAll p.elems selTabContent) tab)
      (querySelectorAll p.elems selTab) p.elems) = queryGuideAccordion p.elems :=
    queryGuideAccordion_congr _ _ (addListenerEach_view guideView _ (fun _ _ => rfl) _ _)
  unfold initTabs
  simp only [hq]
  cases queryGuideAccordion p.elems <;> rfl

theorem accordionView_active_add (e : Element) :
    accordionView (e.addClass "active") = accordionView e := by
  simp only [accordionView, hasClass_addClass]
  simp

theorem accordionView_active_remove (e : Element) :
    accordionView (e.removeClass "active") = accordionView e := by
  simp only [accordionView, hasClass_removeClass]
  simp

/-- C6 (as the code has it): initialisation adds `open` to the first `.tool-accordion`
inside `#guide` and closes nothing: afterwards the open accordions are that first one
together with those the markup already marked open. -/
theorem C6_init_opens_first_keeps_others (es : List Element) (hash : String) (api : Bool)
    (t0 first : Nat) (hfirst : queryGuideAccordion es = some first) (i : Nat) :
    i ∈ openAccordions (domContentLoaded (initialPage es hash api t0)).elems ↔
      (i = first ∨ i ∈ openAccordions es) := by
  have hview : (domContentLoaded (initialPage es hash api t0)).elems.map accordionView =
      (initTabs (initialPage es hash api t0)).elems.map accordionView := by
    unfold domContentLoaded
    rw [initStatusRefresh_view accordionView (fun _ _ => rfl),
      handleHashNavigation_view accordionView accordionView_active_add
        accordionView_active_remove]
  have hsel : ∀ e : Element, (e.hasClass "tool-accordion" && e.hasClass "open") =
      (fun v : Bool × Bool => v.1 && v.2) (accordionView e) := fun _ => rfl
  have hopen : openAccordions (domContentLoaded (initialPage es hash api t0)).elems =
      openAccordions (initTabs (initialPage es hash api t0)).elems :=
    querySelectorAll_of_view accordionView _ (fun v : Bool × Bool => v.1 && v.2) hsel _ _ hview
  have hg0 : queryGuideAccordion (initialPage es hash api t0).elems = some first := by
    rw [queryGuideAccordion_congr _ es (initialPage_view guideView (fun _ => rfl) es hash api t0)]
    exact hfirst
  have hfirst_acc : ∃ e, es[first]? = some e ∧ e.hasClass "tool-accordion" = true := by
    unfold queryGuideAccordion at hfirst
    have hm := List.mem_of_mem_head? hfirst
    rw [List.mem_filter] at hm
    have hs := hm.2
    unfold selGuideAccordion at hs
    cases he : es[first]? with
    | none => rw [he] at hs; cases hs
    | some e =>
      rw [he] at hs
      simp only [Bool.and_eq_true] at hs
      exact ⟨e, rfl, hs.1⟩
  rw [hopen, initTabs_elems, hg0]
  simp only [openAccordions]
  rw [mem_querySelectorAll, mem_querySelectorAll, List.getElem?_modify]
  have hv : (addListenerEach (fun tab => Listener.activateTab
      (querySelectorAll (initialPage es hash api t0).elems selTab)
      (querySelectorAll (initialPage es hash api t0).elems selTabContent) tab)
      (querySelectorAll (initialPage es hash api t0).elems selTab)
      (initialPage es hash api t0).elems).map accordionView = es.map accordionView := by
    rw [addListenerEach_view accordionView _ (fun _ _ => rfl),
      initialPage_view accordionView (fun _ => rfl)]
  generalize (addListenerEach _ _ (initialPage es hash api t0).elems) = es1 at hv ⊢
  by_cases hi : first = i
  · subst hi
    have h1 := exists_of_view accordionView es1 es hv first (fun v => v.1 = true)
    simp only [accordionView] at h1
    have h1' := h1.2 hfirst_acc
    obtain ⟨e1, he1, hta⟩ := h1'
    constructor
    · intro _; exact Or.inl rfl
    · intro _
      refine ⟨e1.addClass "open", by simp [he1], ?_⟩
      rw [hasClass_addClass, hasClass_addClass, hta]
      simp
  · have hi' : ¬ i = first := fun h => hi h.symm
    simp only [hi, if_false, hi', false_or]
    have h1 := exists_of_view accordionView es1 es hv i (fun v => (v.1 && v.2) = true)
    simp only [accordionView] at h1
    rw [← h1]
    constructor
    · rintro ⟨e, he, hs⟩
      cases hx : es1[i]? with
      | none => rw [hx] at he; cases he
      | some x =>
        rw [hx] at he
        have : e = x := by simpa using he.symm
        exact ⟨x, rfl, by rw [← this]; exact hs⟩
    · rintro ⟨e, he, hs⟩
      exact ⟨e, by rw [he]; rfl, hs⟩

/-- C6 on the sample markup: the first accordion of the guide panel is element 5. -/
theorem C6_witness :
    5 ∈ openAccordions (domContentLoaded (initialPage sampleDoc "" true 1)).elems ↔
      (5 = 5 ∨ 5 ∈ openAccordions sampleDoc) :=
  C6_init_opens_first_keeps_others sampleDoc "" true 1 5 (by decide) 5

theorem tabView_addClass (c : String) (h1 : "tab" ≠ c) (h2 : "tab-content" ≠ c) (e : Element) :
    tabView (e.addClass c) = tabView e := by
  simp only [tabView, hasClass_addClass, h1, h2, decide_False, Bool.false_or]
  rfl

theorem tabView_removeClass (c : String) (h1 : "tab" ≠ c) (h2 : "tab-content" ≠ c)
    (e : Element) : tabView (e.removeClass c) = tabView e := by
  simp only [tabView, hasClass_removeClass, h1, h2, decide_False, Bool.not_false, Bool.and_true]
  rfl

theorem initTabs_view {β : Type} (g : Element → β)
    (hl : ∀ l e, g (e.addListener l) = g e) (ho : ∀ e, g (e.addClass "open") = g e)
    (p : Page) : (initTabs p).elems.map g = p.elems.map g := by
  rw [initTabs_elems]
  cases queryGuideAccordion p.elems with
  | none => exact addListenerEach_view g _ hl _ _
  | some first =>
    simp only []
    rw [map_modify_of_view g _ ho, addListenerEach_view g _ hl]

/-- A view of the elements that the whole script leaves alone. -/
theorem domContentLoaded_view {β : Type} (g : Element → β)
    (hs : ∀ e : Element, g { e with listeners := [] } = g e)
    (hl : ∀ l e, g (e.addListener l) = g e) (ho : ∀ e, g (e.addClass "open") = g e)
    (hadd : ∀ e, g (e.addClass "active") = g e) (hrem : ∀ e, g (e.removeClass "active") = g e)
    (es : List Element) (hash : String) (api : Bool) (t0 : Nat) :
    (domContentLoaded (initialPage es hash api t0)).elems.map g = es.map g := by
  unfold domContentLoaded
  rw [initStatusRefresh_view g hl, handleHashNavigation_view g hadd hrem, initTabs_view g hl ho,
    initialPage_view g hs]

theorem tabView_loaded (es : List Element) (hash : String) (api : Bool) (t0 : Nat) :
    (domContentLoaded (initialPage es hash api t0)).elems.map tabView = es.map tabView :=
  domContentLoaded_view tabView (fun _ => rfl) (fun _ _ => rfl)
    (tabView_addClass "open" (by decide) (by decide))
    (tabView_addClass "active" (by decide) (by decide))
    (tabView_removeClass "active" (by decide) (by decide)) es hash api t0

theorem selTab_view (e : Element) :
    selTab e = (fun v : Bool × Bool × Option String × Option String => v.1) (tabView e) := rfl

theorem selTabContent_view (e : Element) :
    selTabContent e =
      (fun v : Bool × Bool × Option String × Option String => v.2.1) (tabView e) := rfl

theorem selTabWithKey_view (k : String) (e : Element) :
    selTabWithKey k e =
      (fun v : Bool × Bool × Option String × Option String => v.1 && v.2.2.1 == some k)
        (tabView e) := rfl

theorem selTabNotStatus_view (e : Element) :
    selTabNotStatus e =
      (fun v : Bool × Bool × Option String × Option String => v.1 && !(v.2.2.1 == some "status"))
        (tabView e) := rfl

theorem selId_view (k : String) (e : Element) :
    (fun e : Element => e.id == some k) e =
      (fun v : Bool × Bool × Option String × Option String => v.2.2.2 == some k)
        (tabView e) := rfl

theorem getElementById_of_view (es es' : List Element) (h : es.map tabView = es'.map tabView)
    (k : String) : getElementById es k = getElementById es' k := by
  unfold getElementById querySelector
  rw [querySelectorAll_of_view tabView _
    (fun v : Bool × Bool × Option String × Option String => v.2.2.2 == some k)
    (selId_view k) es es' h]

theorem qsa_selTab_of_view (es es' : List Element) (h : es.map tabView = es'.map tabView) :
    querySelectorAll es selTab = querySelectorAll es' selTab :=
  querySelectorAll_of_view tabView _
    (fun v : Bool × Bool × Option String × Option String => v.1) selTab_view es es' h

theorem qsa_selTabContent_of_view (es es' : List Element)
    (h : es.map tabView = es'.map tabView) :
    querySelectorAll es selTabContent = querySelectorAll es' selTabContent :=
  querySelectorAll_of_view tabView _
    (fun v : Bool × Bool × Option String × Option String => v.2.1) selTabContent_view es es' h

theorem qsa_selTabWithKey_of_view (k : String) (es es' : List Element)
    (h : es.map tabView = es'.map tabView) :
    querySelectorAll es (selTabWithKey k) = querySelectorAll es' (selTabWithKey k) :=
  querySelectorAll_of_view tabView _
    (fun v : Bool × Bool × Option String × Option String => v.1 && v.2.2.1 == some k)
    (selTabWithKey_view k) es es' h

theorem qsa_selTabNotStatus_of_view (es es' : List Element)
    (h : es.map tabView = es'.map tabView) :
    querySelectorAll es selTabNotStatus = querySelectorAll es' selTabNotStatus :=
  querySelectorAll_of_view tabView _
    (fun v : Bool × Bool × Option String × Option String => v.1 && !(v.2.2.1 == some "status"))
    selTabNotStatus_view es es' h

theorem initTabs_listeners (p : Page) (i : Nat) :
    (initTabs p).elems[i]?.map (fun e => e.listeners) =
      p.elems[i]?.map (fun e => e.listeners ++
        if i ∈ querySelectorAll p.elems selTab then
          [Listener.activateTab (querySelectorAll p.elems selTab)
            (querySelectorAll p.elems selTabContent) i]
        else []) := by
  rw [initTabs_elems]
  have hn := nodup_querySelectorAll p.elems selTab
  cases queryGuideAccordion p.elems with
  | none =>
    simp only []
    rw [getElem?_addListenerEach _ _ hn]
    cases p.elems[i]? with
    | none => rfl
    | some e =>
      by_cases hi : i ∈ querySelectorAll p.elems selTab <;> simp [hi, Element.addListener]
  | some first =>
    simp only []
    rw [List.getElem?_modify, getElem?_addListenerEach _ _ hn]
    cases p.elems[i]? with
    | none => rfl
    | some e =>
      by_cases hi : i ∈ querySelectorAll p.elems selTab <;>
        by_cases hf : first = i <;> simp [hi, hf, Element.addListener, Element.addClass]

theorem initStatusRefresh_listeners (p : Page) (i : Nat) :
    (initStatusRefresh p).elems[i]?.map (fun e => e.listeners) =
      p.elems[i]?.map (fun e => e.listeners ++
        (if querySelector p.elems (selTabWithKey "status") = some i then
          [Listener.startStatusRefresh] else []) ++
        (if i ∈ querySelectorAll p.elems selTabNotStatus then
          [Listener.stopStatusRefresh] else [])) := by
  unfold initStatusRefresh
  simp only []
  have hv : ∀ s : Nat, (p.elems.modify (Element.addListener .startStatusRefresh) s).map tabView
      = p.elems.map tabView := fun s =>
    map_modify_of_view tabView (Element.addListener .startStatusRefresh) (fun _ => rfl) _ _
  cases hq : querySelector p.elems (selTabWithKey "status") with
  | none =>
    simp only []
    rw [getElem?_addListenerEach _ _ (nodup_querySelectorAll _ _)]
    cases p.elems[i]? with
    | none => rfl
    | some e =>
      by_cases hi : i ∈ querySelectorAll p.elems selTabNotStatus <;>
        simp [hi, Element.addListener]
  | some s =>
    simp only []
    rw [qsa_selTabNotStatus_of_view _ _ (hv s),
      getElem?_addListenerEach _ _ (nodup_querySelectorAll _ _), List.getElem?_modify]
    cases p.elems[i]? with
    | none => rfl
    | some e =>
      by_cases hi : i ∈ querySelectorAll p.elems selTabNotStatus <;>
        by_cases hs : s = i <;> simp [hi, hs, Element.addListener]

/-- The listeners each element carries after `DOMContentLoaded`. -/
theorem loaded_listeners (es : List Element) (hash : String) (api : Bool) (t0 : Nat) (i : Nat) :
    (domContentLoaded (initialPage es hash api t0)).elems[i]?.map (fun e => e.listeners) =
      es[i]?.map (fun _ => loadedListeners es i) := by
  have hv1 : (initTabs (initialPage es hash api t0)).elems.map tabView = es.map tabView := by
    rw [initTabs_view tabView (fun _ _ => rfl) (tabView_addClass "open" (by decide) (by decide)),
      initialPage_view tabView (fun _ => rfl)]
  have hv2 : (handleHashNavigation (initTabs (initialPage es hash api t0))).elems.map tabView
      = es.map tabView := by
    rw [handleHashNavigation_view tabView (tabView_addClass "active" (by decide) (by decide))
      (tabView_removeClass "active" (by decide) (by decide)), hv1]
  have hv0 := initialPage_view tabView (fun _ => rfl) es hash api t0
  have hl : (handleHashNavigation (initTabs (initialPage es hash api t0))).elems[i]?.map
      (fun e => e.listeners) =
      (initTabs (initialPage es hash api t0)).elems[i]?.map (fun e => e.listeners) :=
    getElem?_of_view _ _ _
      (handleHashNavigation_view (fun e => e.listeners) (fun _ => rfl) (fun _ => rfl) _) i
  have h3 := initStatusRefresh_listeners
    (handleHashNavigation (initTabs (initialPage es hash api t0))) i
  have h1 := initTabs_listeners (initialPage es hash api t0) i
  unfold querySelector at h3
  rw [qsa_selTabWithKey_of_view _ _ _ hv2, qsa_selTabNotStatus_of_view _ _ hv2] at h3
  rw [qsa_selTab_of_view _ _ hv0, qsa_selTabContent_of_view _ _ hv0] at h1
  rw [h1] at hl
  unfold domContentLoaded
  rw [h3]
  have h0 : (initialPage es hash api t0).elems[i]? =
      es[i]?.map (fun e => { e with listeners := [] }) := by
    simp [initialPage]
  rw [h0] at hl
  unfold loadedListeners querySelector
  cases hx : (handleHashNavigation (initTabs (initialPage es hash api t0))).elems[i]? with
  | none =>
    rw [hx] at hl
    cases hy : es[i]? with
    | none => rfl
    | some e => rw [hy] at hl; cases hl
  | some x =>
    rw [hx] at hl
    cases hy : es[i]? with
    | none => rw [hy] at hl; cases hl
    | some e =>
      rw [hy] at hl
      have hxl : x.listeners = [] ++
          if i ∈ querySelectorAll es selTab then
            [Listener.activateTab (querySelectorAll es selTab)
              (querySelectorAll es selTabContent) i]
          else [] := by simpa using hl
      simp only [Option.map_some', hxl, List.nil_append]

/-! ## The status timer -/

theorem activateTab_timers (tabs tabContents : List Nat) (tab : Nat) (p : Page) :
    timers (activateTab tabs tabContents tab p) = timers p := by
  unfold activateTab
  simp only []
  split <;> rfl

theorem initTabs_timers (p : Page) : timers (initTabs p) = timers p := by
  unfold initTabs
  simp only []
  split <;> rfl

theorem initStatusRefresh_timers (p : Page) : timers (initStatusRefresh p) = timers p := rfl

theorem TimerInv_of_timers (p q : Page) (h : timers q = timers p) (hp : TimerInv p) :
    TimerInv q := by
  simp only [timers, Prod.mk.injEq] at h
  unfold TimerInv
  rw [h.1, h.2.1, h.2.2]
  exact hp

/-- The line-115 listener leaves exactly one live interval, held by the handle; when one
was live already it changes nothing. -/
theorem startStatusRefresh_spec (p : Page) (hp : TimerInv p) :
    TimerInv (startStatusRefresh p) ∧
    (∃ h, (startStatusRefresh p).statusRefreshInterval = some h ∧
      (startStatusRefresh p).intervals = [⟨h, 30000⟩]) ∧
    (p.statusRefreshInterval ≠ none → timers (startStatusRefresh p) = timers p) := by
  obtain ⟨hpos, hcase⟩ := hp
  rcases hcase with ⟨h1, h2⟩ | ⟨h, hne, h1, h2⟩
  · have hs : startStatusRefresh p =
        { p with intervals := p.intervals ++ [⟨p.nextTimerId, 30000⟩],
                 nextTimerId := p.nextTimerId + 1,
                 statusRefreshInterval := some p.nextTimerId } := by
      simp [startStatusRefresh, h1, truthy, setInterval]
    rw [hs]
    refine ⟨⟨Nat.succ_pos _, Or.inr ⟨p.nextTimerId, by omega, rfl, by simp [h2]⟩⟩,
      ⟨p.nextTimerId, rfl, by simp [h2]⟩, fun hc => absurd h1 hc⟩
  · have hs : startStatusRefresh p = p := by
      simp [startStatusRefresh, h1, truthy, hne]
    rw [hs]
    exact ⟨⟨hpos, Or.inr ⟨h, hne, h1, h2⟩⟩, ⟨h, h1, h2⟩, fun _ => rfl⟩

/-- The line-125 listener leaves no live interval and a `null` handle. -/
theorem stopStatusRefresh_spec (p : Page) (hp : TimerInv p) :
    TimerInv (stopStatusRefresh p) ∧
    (stopStatusRefresh p).statusRefreshInterval = none ∧ (stopStatusRefresh p).intervals = [] := by
  obtain ⟨hpos, hcase⟩ := hp
  rcases hcase with ⟨h1, h2⟩ | ⟨h, hne, h1, h2⟩
  · have hs : stopStatusRefresh p = p := by
      simp [stopStatusRefresh, h1, truthy]
    rw [hs]
    exact ⟨⟨hpos, Or.inl ⟨h1, h2⟩⟩, h1, h2⟩
  · have hs : stopStatusRefresh p =
        { clearInterval h p with statusRefreshInterval := none } := by
      simp [stopStatusRefresh, h1, truthy, hne]
    rw [hs]
    have hi : (clearInterval h p).intervals = [] := by
      simp [clearInterval, h2]
    exact ⟨⟨hpos, Or.inl ⟨rfl, hi⟩⟩, rfl, hi⟩

theorem runListener_TimerInv (l : Listener) (p : Page) (hp : TimerInv p) :
    TimerInv (runListener l p) := by
  cases l with
  | activateTab tabs tabContents tab =>
    exact TimerInv_of_timers p _ (activateTab_timers tabs tabContents tab p) hp
  | startStatusRefresh => exact (startStatusRefresh_spec p hp).1
  | stopStatusRefresh => exact (stopStatusRefresh_spec p hp).1

theorem foldl_runListener_TimerInv (ls : List Listener) (p : Page) (hp : TimerInv p) :
    TimerInv (ls.foldl (fun q l => runListener l q) p) := by
  induction ls generalizing p with
  | nil => exact hp
  | cons l ls ih => exact ih _ (runListener_TimerInv l p hp)

theorem dispatch_TimerInv (i : Nat) (p : Page) (hp : TimerInv p) :
    TimerInv (dispatch i p) := by
  unfold dispatch
  split
  · exact hp
  · exact foldl_runListener_TimerInv _ p hp

theorem click_TimerInv (i : Nat) (p : Page) (hp : TimerInv p) : TimerInv (click i p) := by
  unfold click
  generalize eventPath p.elems i = path
  induction path generalizing p with
  | nil => exact hp
  | cons n path ih => exact ih _ (dispatch_TimerInv n p hp)

theorem handleHashNavigation_TimerInv (p : Page) (hp : TimerInv p) :
    TimerInv (handleHashNavigation p) := by
  unfold handleHashNavigation
  simp only []
  split
  · split
    · exact click_TimerInv _ p hp
    · exact hp
  · exact hp

theorem click_Loaded (es : List Element) (i : Nat) (p : Page) (hp : Loaded es p) :
    Loaded es (click i p) := by
  obtain ⟨h1, h2, h3⟩ := hp
  refine ⟨fun j => ?_, ?_, ?_⟩
  · rw [getElem?_of_view _ _ _ (click_view (fun e => e.listeners) (fun _ => rfl)
      (fun _ => rfl) i p) j]
    exact h1 j
  · rw [click_view tabView (tabView_addClass "active" (by decide) (by decide))
      (tabView_removeClass "active" (by decide) (by decide))]
    exact h2
  · rw [click_view (fun e => e.parent) (fun _ => rfl) (fun _ => rfl)]
    exact h3

theorem clicks_Loaded (es : List Element) (seq : List Nat) (p : Page) (hp : Loaded es p) :
    Loaded es (clicks seq p) := by
  unfold clicks
  induction seq generalizing p with
  | nil => exact hp
  | cons i seq ih => exact ih _ (click_Loaded es i p hp)

theorem clicks_TimerInv (seq : List Nat) (p : Page) (hp : TimerInv p) :
    TimerInv (clicks seq p) := by
  unfold clicks
  induction seq generalizing p with
  | nil => exact hp
  | cons i seq ih => exact ih _ (click_TimerInv i p hp)

theorem domContentLoaded_Loaded (es : List Element) (hash : String) (api : Bool) (t0 : Nat) :
    Loaded es (domContentLoaded (initialPage es hash api t0)) :=
  ⟨loaded_listeners es hash api t0, tabView_loaded es hash api t0,
    domContentLoaded_view (fun e => e.parent) (fun _ => rfl) (fun _ _ => rfl) (fun _ => rfl)
      (fun _ => rfl) (fun _ => rfl) es hash api t0⟩

theorem domContentLoaded_TimerInv (es : List Element) (hash : String) (api : Bool) (t0 : Nat)
    (ht0 : 0 < t0) : TimerInv (domContentLoaded (initialPage es hash api t0)) := by
  unfold domContentLoaded
  apply TimerInv_of_timers _ _ (initStatusRefresh_timers _)
  apply handleHashNavigation_TimerInv
  apply TimerInv_of_timers _ _ (initTabs_timers _)
  exact ⟨ht0, Or.inl ⟨rfl, rfl⟩⟩

theorem querySelector_some (es : List Element) (sel : Element → Bool) (i : Nat)
    (h : querySelector es sel = some i) : ∃ e, es[i]? = some e ∧ sel e = true :=
  (mem_querySelectorAll es sel i).1 (List.mem_of_mem_head? h)

theorem loadedListeners_status (es : List Element) (s : Nat)
    (hs : querySelector es (selTabWithKey "status") = some s) :
    loadedListeners es s =
      [Listener.activateTab (querySelectorAll es selTab) (querySelectorAll es selTabContent) s,
        Listener.startStatusRefresh] := by
  obtain ⟨e, he, hsel⟩ := querySelector_some es _ s hs
  simp only [selTabWithKey, Bool.and_eq_true] at hsel
  have h1 : s ∈ querySelectorAll es selTab :=
    (mem_querySelectorAll es selTab s).2 ⟨e, he, hsel.1⟩
  have h2 : s ∉ querySelectorAll es selTabNotStatus := by
    rw [mem_querySelectorAll]
    rintro ⟨e', he', hn⟩
    rw [he] at he'
    have : e = e' := by simpa using he'
    subst this
    simp only [selTabNotStatus, Bool.and_eq_true, Bool.not_eq_true'] at hn
    rw [hsel.2] at hn
    exact absurd hn.2 (by decide)
  simp [loadedListeners, h1, h2, hs]

theorem loadedListeners_other (es : List Element) (i : Nat) (e : Element)
    (he : es[i]? = some e) (hsel : selTabNotStatus e = true) :
    loadedListeners es i =
      [Listener.activateTab (querySelectorAll es selTab) (querySelectorAll es selTabContent) i,
        Listener.stopStatusRefresh] := by
  have hsel' := hsel
  simp only [selTabNotStatus, Bool.and_eq_true, Bool.not_eq_true'] at hsel'
  have h1 : i ∈ querySelectorAll es selTab :=
    (mem_querySelectorAll es selTab i).2 ⟨e, he, hsel'.1⟩
  have h2 : i ∈ querySelectorAll es selTabNotStatus :=
    (mem_querySelectorAll es selTabNotStatus i).2 ⟨e, he, hsel⟩
  have h3 : ¬ querySelector es (selTabWithKey "status") = some i := by
    intro hq
    obtain ⟨e', he', hk⟩ := querySelector_some es _ i hq
    rw [he] at he'
    have : e = e' := by simpa using he'
    subst this
    simp only [selTabWithKey, Bool.and_eq_true] at hk
    rw [hk.2] at hsel'
    exact absurd hsel'.2 (by decide)
  simp [loadedListeners, h1, h2, h3]

theorem dispatch_of_listeners (es : List Element) (i : Nat) (p : Page) (hp : Loaded es p)
    (e : Element) (he : es[i]? = some e) :
    dispatch i p = (loadedListeners es i).foldl (fun q l => runListener l q) p := by
  have h := hp.1 i
  rw [he] at h
  unfold dispatch
  cases hx : p.elems[i]? with
  | none => rw [hx] at h; cases h
  | some x =>
    rw [hx] at h
    have : x.listeners = loadedListeners es i := by simpa using h
    simp only [this]

theorem dispatch_status (es : List Element) (s : Nat) (p : Page) (hp : Loaded es p)
    (hs : querySelector es (selTabWithKey "status") = some s) :
    dispatch s p = startStatusRefresh
      (activateTab (querySelectorAll es selTab) (querySelectorAll es selTabContent) s p) := by
  obtain ⟨e, he, _⟩ := querySelector_some es _ s hs
  rw [dispatch_of_listeners es s p hp e he, loadedListeners_status es s hs]
  rfl

theorem dispatch_other (es : List Element) (i : Nat) (p : Page) (hp : Loaded es p)
    (e : Element) (he : es[i]? = some e) (hsel : selTabNotStatus e = true) :
    dispatch i p = stopStatusRefresh
      (activateTab (querySelectorAll es selTab) (querySelectorAll es selTabContent) i p) := by
  rw [dispatch_of_listeners es i p hp e he, loadedListeners_other es i e he hsel]
  rfl

theorem view_at {β : Type} (g : Element → β) (es es' : List Element)
    (h : es.map g = es'.map g) (n : Nat) (e : Element) (he : es[n]? = some e) :
    ∃ e', es'[n]? = some e' ∧ g e' = g e := by
  have hi := getElem?_of_view g es es' h n
  rw [he] at hi
  cases hx : es'[n]? with
  | none => rw [hx] at hi; cases hi
  | some e' =>
    rw [hx] at hi
    exact ⟨e', rfl, by simpa using hi.symm⟩

theorem foldl_runListener_timers (ls : List Listener) (p : Page)
    (h : ∀ l ∈ ls, ∀ r, timers (runListener l r) = timers r) :
    timers (ls.foldl (fun q l => runListener l q) p) = timers p := by
  induction ls generalizing p with
  | nil => rfl
  | cons l ls ih =>
    rw [List.foldl_cons, ih _ (fun l' hl' => h l' (List.mem_cons_of_mem _ hl')),
      h l (List.mem_cons_self _ _)]

/-- While every registered listener leaves the timers alone, so does a click. -/
theorem foldl_dispatch_timers (path : List Nat) (p : Page)
    (h : ∀ (n : Nat) (x : Element), p.elems[n]? = some x →
      ∀ l ∈ x.listeners, ∀ r, timers (runListener l r) = timers r) :
    timers (path.foldl (fun q n => dispatch n q) p) = timers p := by
  induction path generalizing p with
  | nil => rfl
  | cons n path ih =>
    have hd : timers (dispatch n p) = timers p := by
      unfold dispatch
      cases hx : p.elems[n]? with
      | none => rfl
      | some x => exact foldl_runListener_timers _ p (h n x hx)
    have h' : ∀ (m : Nat) (x : Element), (dispatch n p).elems[m]? = some x →
        ∀ l ∈ x.listeners, ∀ r, timers (runListener l r) = timers r := by
      intro m x hx
      obtain ⟨y, hy, hyl⟩ := view_at (fun e => e.listeners) _ p.elems
        (dispatch_view (fun e => e.listeners) (fun _ => rfl) (fun _ => rfl) n p) m x hx
      have hyl' : y.listeners = x.listeners := hyl
      rw [← hyl']
      exact h m y hy
    rw [List.foldl_cons, ih _ h', hd]

theorem initial_timers (es : List Element) (hash : String) (api : Bool) (t0 : Nat) :
    timers (domContentLoaded (initialPage es hash api t0)) = (none, [], t0) := by
  unfold domContentLoaded
  rw [initStatusRefresh_timers]
  have h0 : timers (initTabs (initialPage es hash api t0)) = (none, [], t0) := by
    rw [initTabs_timers]; rfl
  have hN : ∀ (n : Nat) (x : Element), (initTabs (initialPage es hash api t0)).elems[n]? = some x →
      ∀ l ∈ x.listeners, ∀ r, timers (runListener l r) = timers r := by
    intro n x hx l hl r
    have hl1 := initTabs_listeners (initialPage es hash api t0) n
    have hi : (initialPage es hash api t0).elems[n]? =
        es[n]?.map (fun e => { e with listeners := [] }) := by
      simp [initialPage]
    rw [hi, hx] at hl1
    cases hy : es[n]? with
    | none => rw [hy] at hl1; cases hl1
    | some y =>
      rw [hy] at hl1
      simp only [Option.map_some', Option.some.injEq, List.nil_append] at hl1
      rw [hl1] at hl
      split at hl
      · rw [List.mem_singleton] at hl
        rw [hl]
        exact activateTab_timers _ _ _ r
      · cases hl
  unfold handleHashNavigation
  simp only []
  split
  · split
    · unfold click
      rw [foldl_dispatch_timers _ _ hN]
      exact h0
    · exact h0
  · exact h0

/-! ## Bubbling -/

theorem ancestors_congr (es es' : List Element)
    (h : es.map (fun e => e.parent) = es'.map (fun e => e.parent)) (fuel : Nat)
    (par : Option Nat) : ancestors es fuel par = ancestors es' fuel par := by
  induction fuel generalizing par with
  | zero => rfl
  | succ n ih =>
    cases par with
    | none => rfl
    | some a =>
      have hi := getElem?_of_view (fun e => e.parent) es es' h a
      unfold ancestors
      cases h1 : es[a]? with
      | none =>
        cases h2 : es'[a]? with
        | none => rfl
        | some e' => rw [h1, h2] at hi; cases hi
      | some e =>
        cases h2 : es'[a]? with
        | none => rw [h1, h2] at hi; cases hi
        | some e' =>
          rw [h1, h2] at hi
          have hg : e.parent = e'.parent := by simpa using hi
          simp only [hg, ih]

theorem ancestorsOf_congr (es es' : List Element)
    (h : es.map (fun e => e.parent) = es'.map (fun e => e.parent)) (i : Nat) :
    ancestorsOf es i = ancestorsOf es' i := by
  have hlen : es.length = es'.length := by
    have := congrArg List.length h
    simpa using this
  have hi := getElem?_of_view (fun e => e.parent) es es' h i
  unfold ancestorsOf
  cases h1 : es[i]? with
  | none =>
    cases h2 : es'[i]? with
    | none => rfl
    | some e' => rw [h1, h2] at hi; cases hi
  | some e =>
    cases h2 : es'[i]? with
    | none => rw [h1, h2] at hi; cases hi
    | some e' =>
      rw [h1, h2] at hi
      have hg : e.parent = e'.parent := by simpa using hi
      simp only [hg, hlen, ancestors_congr es es' h]

theorem loadedListeners_nontab (es : List Element) (a : Nat)
    (ha : a ∉ querySelectorAll es selTab) : loadedListeners es a = [] := by
  have h2 : ¬ querySelector es (selTabWithKey "status") = some a := by
    intro hq
    obtain ⟨e, he, hk⟩ := querySelector_some es _ a hq
    simp only [selTabWithKey, Bool.and_eq_true] at hk
    exact ha ((mem_querySelectorAll es selTab a).2 ⟨e, he, hk.1⟩)
  have h3 : a ∉ querySelectorAll es selTabNotStatus := by
    rw [mem_querySelectorAll]
    rintro ⟨e, he, hk⟩
    simp only [selTabNotStatus, Bool.and_eq_true] at hk
    exact ha ((mem_querySelectorAll es selTab a).2 ⟨e, he, hk.1⟩)
  simp [loadedListeners, ha, h2, h3]

theorem dispatch_nontab (es : List Element) (a : Nat) (q : Page) (hq : Loaded es q)
    (ha : a ∉ querySelectorAll es selTab) : dispatch a q = q := by
  have h := hq.1 a
  unfold dispatch
  cases hx : q.elems[a]? with
  | none => rfl
  | some x =>
    rw [hx] at h
    cases hy : es[a]? with
    | none => rw [hy] at h; cases h
    | some y =>
      rw [hy, loadedListeners_nontab es a ha] at h
      have : x.listeners = [] := by simpa using h
      simp only [this, List.foldl_nil]

/-- On a page without nested tabs a click on a tab runs that tab's listeners only. -/
theorem click_eq_dispatch (es : List Element) (i : Nat) (Q : Page) (hQ : Loaded es Q)
    (hflat : NoNestedTabs es) (hi : i ∈ querySelectorAll es selTab) :
    click i Q = dispatch i Q := by
  obtain ⟨x, hx, _⟩ := (mem_querySelectorAll es selTab i).1 hi
  obtain ⟨x', hx', _⟩ := view_at tabView es Q.elems hQ.2.1.symm i x hx
  have hpath : eventPath Q.elems i = i :: ancestorsOf es i := by
    unfold eventPath
    rw [hx', ancestorsOf_congr Q.elems es hQ.2.2 i]
  have hfix : ∀ (path : List Nat) (q : Page), Loaded es q →
      (∀ a ∈ path, a ∉ querySelectorAll es selTab) →
      path.foldl (fun q n => dispatch n q) q = q := by
    intro path
    induction path with
    | nil => intro q _ _; rfl
    | cons a path ih =>
      intro q hq hp
      rw [List.foldl_cons, dispatch_nontab es a q hq (hp a (List.mem_cons_self _ _))]
      exact ih q hq (fun b hb => hp b (List.mem_cons_of_mem _ hb))
  have hd : Loaded es (dispatch i Q) := by
    obtain ⟨h1, h2, h3⟩ := hQ
    refine ⟨fun j => ?_, ?_, ?_⟩
    · rw [getElem?_of_view _ _ _ (dispatch_view (fun e => e.listeners) (fun _ => rfl)
        (fun _ => rfl) i Q) j]
      exact h1 j
    · rw [dispatch_view tabView (tabView_addClass "active" (by decide) (by decide))
        (tabView_removeClass "active" (by decide) (by decide))]
      exact h2
    · rw [dispatch_view (fun e => e.parent) (fun _ => rfl) (fun _ => rfl)]
      exact h3
  unfold click
  rw [hpath, List.foldl_cons]
  exact hfix _ _ hd (hflat i hi)

/-- C3 (as the code has it): starting from the initial state (handle `null`, no timer),
after any run of clicks on any page at most one status polling interval is live and the
handle is non-null (and truthy) exactly when one is live. On a page where no tab lies
inside another tab, a click on the status tab leaves exactly one live interval, held by
the handle, clicking it any number of times in a row creates no further timer, and a
click on any other tab leaves no live interval and a `null` handle. The first timer id
is assumed non-zero. -/
theorem C3_single_status_timer (es : List Element) (hash : String) (api : Bool) (t0 : Nat)
    (ht0 : 0 < t0) (seq : List Nat) :
    (domContentLoaded (initialPage es hash api t0)).statusRefreshInterval = none ∧
    (domContentLoaded (initialPage es hash api t0)).intervals = [] ∧
    (clicks seq (domContentLoaded (initialPage es hash api t0))).intervals.length ≤ 1 ∧
    ((clicks seq (domContentLoaded (initialPage es hash api t0))).statusRefreshInterval ≠ none ↔
      (clicks seq (domContentLoaded (initialPage es hash api t0))).intervals.length = 1) ∧
    (truthy (clicks seq (domContentLoaded (initialPage es hash api t0))).statusRefreshInterval
        = true ↔
      (clicks seq (domContentLoaded (initialPage es hash api t0))).intervals.length = 1) ∧
    (NoNestedTabs es →
      (∀ s, querySelector es (selTabWithKey "status") = some s →
        (∃ h, (click s (clicks seq (domContentLoaded (initialPage es hash api t0)))
              ).statusRefreshInterval = some h ∧
            (click s (clicks seq (domContentLoaded (initialPage es hash api t0)))).intervals
              = [⟨h, 30000⟩]) ∧
        ∀ n, timers (clicks (List.replicate (n + 1) s)
              (clicks seq (domContentLoaded (initialPage es hash api t0)))) =
            timers (click s (clicks seq (domContentLoaded (initialPage es hash api t0))))) ∧
      (∀ i e, es[i]? = some e → selTabNotStatus e = true →
        (click i (clicks seq (domContentLoaded (initialPage es hash api t0)))
          ).statusRefreshInterval = none ∧
        (click i (clicks seq (domContentLoaded (initialPage es hash api t0)))).intervals
          = [])) := by
  have hQ := clicks_Loaded es seq _ (domContentLoaded_Loaded es hash api t0)
  have hQi := clicks_TimerInv seq _ (domContentLoaded_TimerInv es hash api t0 ht0)
  have hP0 := initial_timers es hash api t0
  simp only [timers, Prod.mk.injEq] at hP0
  generalize clicks seq (domContentLoaded (initialPage es hash api t0)) = Q at hQ hQi ⊢
  refine ⟨?_, ?_, ?_, ?_, ?_, ?_⟩
  · exact hP0.1
  · exact hP0.2.1
  · rcases hQi.2 with ⟨_, h2⟩ | ⟨h, _, _, h2⟩ <;> simp [h2]
  · rcases hQi.2 with ⟨h1, h2⟩ | ⟨h, _, h1, h2⟩ <;> simp [h1, h2]
  · rcases hQi.2 with ⟨h1, h2⟩ | ⟨h, hne, h1, h2⟩
    · simp [h1, h2, truthy]
    · simp [h1, h2, truthy, hne]
  intro hflat
  constructor
  · intro s hs
    have hsm : s ∈ querySelectorAll es selTab := by
      obtain ⟨e, he, hk⟩ := querySelector_some es _ s hs
      simp only [selTabWithKey, Bool.and_eq_true] at hk
      exact (mem_querySelectorAll es selTab s).2 ⟨e, he, hk.1⟩
    have hstep : ∀ R : Page, Loaded es R → TimerInv R →
        (∃ h, (click s R).statusRefreshInterval = some h ∧ (click s R).intervals = [⟨h, 30000⟩])
        ∧ (R.statusRefreshInterval ≠ none → timers (click s R) = timers R) := by
      intro R hR hRi
      rw [click_eq_dispatch es s R hR hflat hsm, dispatch_status es s R hR hs]
      have hA := activateTab_timers (querySelectorAll es selTab)
        (querySelectorAll es selTabContent) s R
      have hinv := TimerInv_of_timers R _ hA hRi
      obtain ⟨_, h2, h3⟩ := startStatusRefresh_spec _ hinv
      refine ⟨h2, fun hne => ?_⟩
      rw [h3 (by
        have := congrArg Prod.fst hA
        simp only [timers] at this
        rw [this]; exact hne), hA]
    refine ⟨(hstep Q hQ hQi).1, ?_⟩
    intro n
    induction n generalizing Q with
    | zero => rfl
    | succ n ih =>
      have hQ' := click_Loaded es s Q hQ
      have hQi' := click_TimerInv s Q hQi
      have h1 := ih (click s Q) hQ' hQi'
      have hrep : clicks (List.replicate (n + 1 + 1) s) Q =
          clicks (List.replicate (n + 1) s) (click s Q) := by
        simp [clicks, List.replicate_succ]
      rw [hrep, h1]
      obtain ⟨h, hh, _⟩ := (hstep Q hQ hQi).1
      exact (hstep (click s Q) hQ' hQi').2 (by rw [hh]; simp)
  · intro i e he hsel
    have him : i ∈ querySelectorAll es selTab := by
      have hk := hsel
      simp only [selTabNotStatus, Bool.and_eq_true] at hk
      exact (mem_querySelectorAll es selTab i).2 ⟨e, he, hk.1⟩
    rw [click_eq_dispatch es i Q hQ hflat him, dispatch_other es i Q hQ e he hsel]
    have hA := activateTab_timers (querySelectorAll es selTab)
      (querySelectorAll es selTabContent) i Q
    have hinv := TimerInv_of_timers Q _ hA hQi
    exact (stopStatusRefresh_spec _ hinv).2

/-! ## Tab activation -/

theorem activateTab_elems (tabs tabContents : List Nat) (i j : Nat) (k : String) (Q : Page)
    (x : Element) (hx : Q.elems[i]? = some x) (hk : x.dataTab = some k)
    (hj : getElementById Q.elems k = some j) :
    (activateTab tabs tabContents i Q).elems =
      (((removeClassEach "active" tabContents (removeClassEach "active" tabs Q.elems)).modify
        (Element.addClass "active") i).modify (Element.addClass "active") j) := by
  have hv : ((removeClassEach "active" tabContents
      (removeClassEach "active" tabs Q.elems)).modify (Element.addClass "active") i).map tabView
      = Q.elems.map tabView := by
    rw [map_modify_of_view tabView _ (tabView_addClass "active" (by decide) (by decide)),
      removeClassEach_view tabView _ (tabView_removeClass "active" (by decide) (by decide)),
      removeClassEach_view tabView _ (tabView_removeClass "active" (by decide) (by decide))]
  have hi := getElem?_of_view tabView _ _ hv i
  rw [hx] at hi
  unfold activateTab
  simp only []
  cases hy : ((removeClassEach "active" tabContents
      (removeClassEach "active" tabs Q.elems)).modify (Element.addClass "active") i)[i]? with
  | none => rw [hy] at hi; cases hi
  | some y =>
    rw [hy] at hi
    have hyv : tabView y = tabView x := by simpa using hi
    have hyk : y.dataTab = some k := by
      simp only [tabView, Prod.mk.injEq] at hyv
      rw [hyv.2.2.1, hk]
    simp only [hyk, Option.getD_some]
    rw [getElementById_of_view _ _ hv k, hj]

theorem getElem?_activateTab (tabs tabContents : List Nat) (i j : Nat) (k : String) (Q : Page)
    (x : Element) (hx : Q.elems[i]? = some x) (hk : x.dataTab = some k)
    (hj : getElementById Q.elems k = some j) (n : Nat) :
    (activateTab tabs tabContents i Q).elems[n]? = Q.elems[n]?.map (fun q =>
      (if j = n then Element.addClass "active" else id)
        ((if i = n then Element.addClass "active" else id)
          ((if n ∈ tabContents then Element.removeClass "active" else id)
            ((if n ∈ tabs then Element.removeClass "active" else id) q)))) := by
  rw [activateTab_elems tabs tabContents i j k Q x hx hk hj, List.getElem?_modify,
    List.getElem?_modify, getElem?_removeClassEach, getElem?_removeClassEach]
  cases Q.elems[n]? with
  | none => rfl
  | some q =>
    by_cases h1 : j = n <;> by_cases h2 : i = n <;> by_cases h3 : n ∈ tabContents <;>
      by_cases h4 : n ∈ tabs <;> simp [h1, h2, h3, h4]

/-- The classes of an element after the four steps of the line-9 listener. -/
theorem hasClass_activated (c : String) (q : Element) (b1 b2 b3 b4 : Prop)
    [Decidable b1] [Decidable b2] [Decidable b3] [Decidable b4] :
    ((if b1 then Element.addClass "active" else id)
      ((if b2 then Element.addClass "active" else id)
        ((if b3 then Element.removeClass "active" else id)
          ((if b4 then Element.removeClass "active" else id) q)))).hasClass c =
      (if c = "active" then decide b1 || decide b2 || (q.hasClass c && !decide b3 && !decide b4)
       else q.hasClass c) := by
  by_cases hc : c = "active" <;> by_cases h1 : b1 <;> by_cases h2 : b2 <;>
    by_cases h3 : b3 <;> by_cases h4 : b4 <;>
    simp [hc, h1, h2, h3, h4, hasClass_addClass, hasClass_removeClass]

theorem activateTab_exactly_one (Q : Page) (i j : Nat) (k : String) (x panel : Element)
    (hx : Q.elems[i]? = some x) (htab : x.hasClass "tab" = true) (hk : x.dataTab = some k)
    (hj : getElementById Q.elems k = some j) (hpanel : Q.elems[j]? = some panel)
    (hcontent : panel.hasClass "tab-content" = true)
    (hdisj : ∀ (n : Nat) (e : Element), Q.elems[n]? = some e → e.hasClass "tab" = true →
      e.hasClass "tab-content" = false) :
    activeTabs (activateTab (querySelectorAll Q.elems selTab)
      (querySelectorAll Q.elems selTabContent) i Q) = [i] ∧
    activePanels (activateTab (querySelectorAll Q.elems selTab)
      (querySelectorAll Q.elems selTabContent) i Q) = [j] := by
  have hget := getElem?_activateTab (querySelectorAll Q.elems selTab)
    (querySelectorAll Q.elems selTabContent) i j k Q x hx hk hj
  have hmt : ∀ (n : Nat) (q : Element), Q.elems[n]? = some q →
      (n ∈ querySelectorAll Q.elems selTab ↔ q.hasClass "tab" = true) := by
    intro n q hq
    rw [mem_querySelectorAll, hq]
    simp [selTab]
  have hmc : ∀ (n : Nat) (q : Element), Q.elems[n]? = some q →
      (n ∈ querySelectorAll Q.elems selTabContent ↔ q.hasClass "tab-content" = true) := by
    intro n q hq
    rw [mem_querySelectorAll, hq]
    simp [selTabContent]
  have hpt : panel.hasClass "tab" = false := by
    cases hp : panel.hasClass "tab" with
    | false => rfl
    | true => rw [hdisj j panel hpanel hp] at hcontent; cases hcontent
  have hxc : x.hasClass "tab-content" = false := hdisj i x hx htab
  constructor
  · unfold activeTabs
    apply querySelectorAll_eq_singleton
    intro n
    rw [hget n]
    cases hq : Q.elems[n]? with
    | none =>
      constructor
      · rintro ⟨e, he, _⟩
        cases he
      · rintro rfl
        rw [hx] at hq; cases hq
    | some q =>
      simp only [Option.map_some', Option.some.injEq, exists_eq_left', hasClass_activated,
        Bool.and_eq_true]
      have h1 := hmt n q hq
      have h2 := hmc n q hq
      constructor
      · rintro ⟨ht, ha⟩
        simp only [show ¬ ("tab" = "active") by decide, if_false] at ht
        simp only [if_true, Bool.or_eq_true, decide_eq_true_eq, Bool.and_eq_true,
          Bool.not_eq_true', decide_eq_false_iff_not] at ha
        rcases ha with (hjn | hin) | ⟨⟨_, _⟩, hnt⟩
        · subst hjn
          rw [hpanel] at hq
          have : panel = q := by simpa using hq
          rw [← this, hpt] at ht
          cases ht
        · exact hin.symm
        · exact absurd (h1.2 ht) hnt
      · rintro rfl
        rw [hx] at hq
        have : x = q := by simpa using hq
        subst this
        simp [htab]
  · unfold activePanels
    apply querySelectorAll_eq_singleton
    intro n
    rw [hget n]
    cases hq : Q.elems[n]? with
    | none =>
      constructor
      · rintro ⟨e, he, _⟩
        cases he
      · rintro rfl
        rw [hpanel] at hq; cases hq
    | some q =>
      simp only [Option.map_some', Option.some.injEq, exists_eq_left', hasClass_activated,
        Bool.and_eq_true]
      have h1 := hmt n q hq
      have h2 := hmc n q hq
      constructor
      · rintro ⟨ht, ha⟩
        simp only [show ¬ ("tab-content" = "active") by decide, if_false] at ht
        simp only [if_true, Bool.or_eq_true, decide_eq_true_eq, Bool.and_eq_true,
          Bool.not_eq_true', decide_eq_false_iff_not] at ha
        rcases ha with (hjn | hin) | ⟨⟨_, hnc⟩, _⟩
        · exact hjn.symm
        · subst hin
          rw [hx] at hq
          have : x = q := by simpa using hq
          rw [← this, hxc] at ht
          cases ht
        · exact absurd (h2.2 ht) hnc
      · rintro rfl
        rw [hpanel] at hq
        have : panel = q := by simpa using hq
        subst this
        simp [hcontent]

theorem dispatch_elems_of_tab (es : List Element) (i : Nat) (Q : Page) (hQ : Loaded es Q)
    (x : Element) (hx : es[i]? = some x) (htab : x.hasClass "tab" = true) :
    (dispatch i Q).elems = (activateTab (querySelectorAll es selTab)
      (querySelectorAll es selTabContent) i Q).elems := by
  have hi : i ∈ querySelectorAll es selTab := (mem_querySelectorAll es selTab i).2 ⟨x, hx, htab⟩
  rw [dispatch_of_listeners es i Q hQ x hx]
  unfold loadedListeners
  simp only [hi, if_true]
  by_cases h1 : querySelector es (selTabWithKey "status") = some i <;>
    by_cases h2 : i ∈ querySelectorAll es selTabNotStatus <;>
    simp [h1, h2, runListener, startStatusRefresh_elems, stopStatusRefresh_elems]

/-- C1 (as the code has it): on a page meeting the DOM structure contract on which,
besides, no tab is itself a panel and no tab lies inside another tab, after any run of
clicks followed by a click on a tab, exactly one tab carries `active`, namely the clicked
one, and exactly one panel carries `active`, namely the panel whose id is the clicked
tab's `data-tab` key. -/
theorem C1_exactly_one_active_tab_and_panel (es : List Element) (hash : String) (api : Bool)
    (t0 : Nat) (hc : DomContract es) (hnp : TabsNotPanels es) (hflat : NoNestedTabs es)
    (seq : List Nat) (i : Nat) (x : Element)
    (hx : es[i]? = some x) (htab : x.hasClass "tab" = true) :
    ∃ k j panel, x.dataTab = some k ∧ es[j]? = some panel ∧ panel.id = some k ∧
      panel.hasClass "tab-content" = true ∧
      activeTabs (click i (clicks seq (domContentLoaded (initialPage es hash api t0)))) = [i] ∧
      activePanels (click i (clicks seq (domContentLoaded (initialPage es hash api t0))))
        = [j] := by
  have hQ := clicks_Loaded es seq _ (domContentLoaded_Loaded es hash api t0)
  generalize clicks seq (domContentLoaded (initialPage es hash api t0)) = Q at hQ ⊢
  have hxm : x ∈ es := List.getElem?_mem hx
  have htarget := hc.1 x hxm htab
  have him : i ∈ querySelectorAll es selTab := (mem_querySelectorAll es selTab i).2 ⟨x, hx, htab⟩
  unfold tabTargetsPanel at htarget
  cases hk : x.dataTab with
  | none => rw [hk] at htarget; cases htarget
  | some k =>
    rw [hk] at htarget
    simp only [] at htarget
    cases hj : getElementById es k with
    | none => rw [hj] at htarget; cases htarget
    | some j =>
      rw [hj] at htarget
      simp only [] at htarget
      cases hp : es[j]? with
      | none => rw [hp] at htarget; cases htarget
      | some panel =>
        rw [hp] at htarget
        simp only [] at htarget
        have hid : panel.id = some k := by
          unfold getElementById at hj
          split at hj
          · cases hj
          · obtain ⟨e, he, hs⟩ := querySelector_some es _ j hj
            rw [hp] at he
            have : panel = e := by simpa using he
            subst this
            simpa using hs
        refine ⟨k, j, panel, rfl, hp, hid, htarget, ?_⟩
        obtain ⟨x', hx', hxv⟩ := view_at tabView es Q.elems hQ.2.1.symm i x hx
        obtain ⟨panel', hp', hpv⟩ := view_at tabView es Q.elems hQ.2.1.symm j panel hp
        simp only [tabView, Prod.mk.injEq] at hxv hpv
        have hdisj : ∀ (n : Nat) (e : Element), Q.elems[n]? = some e →
            e.hasClass "tab" = true → e.hasClass "tab-content" = false := by
          intro n e he het
          obtain ⟨e0, he0, hev⟩ := view_at tabView Q.elems es hQ.2.1 n e he
          simp only [tabView, Prod.mk.injEq] at hev
          have := hnp e0 (List.getElem?_mem he0) (by rw [hev.1]; exact het)
          rw [← hev.2.1]; exact this
        have hone := activateTab_exactly_one Q i j k x' panel' hx' (by rw [hxv.1]; exact htab)
          (by rw [hxv.2.2.1]; exact hk) (by rw [getElementById_of_view _ _ hQ.2.1 k]; exact hj)
          hp' (by rw [hpv.2.1]; exact htarget) hdisj
        rw [qsa_selTab_of_view _ _ hQ.2.1, qsa_selTabContent_of_view _ _ hQ.2.1] at hone
        have hel := dispatch_elems_of_tab es i Q hQ x hx htab
        rw [← click_eq_dispatch es i Q hQ hflat him] at hel
        unfold activeTabs activePanels at hone ⊢
        rw [hel]
        exact hone

/-- C1 on the sample page: clicks on status, guide, status, then on the tools tab. -/
theorem C1_witness :
    ∃ k j panel, (mkEl "button" none ["tab"] (some "tools") (some 0) "Outils").dataTab = some k ∧
      sampleDoc[j]? = some panel ∧ panel.id = some k ∧
      panel.hasClass "tab-content" = true ∧
      activeTabs (click 2 (clicks [3, 1, 3]
        (domContentLoaded (initialPage sampleDoc "" true 1)))) = [2] ∧
      activePanels (click 2 (clicks [3, 1, 3]
        (domContentLoaded (initialPage sampleDoc "" true 1)))) = [j] :=
  C1_exactly_one_active_tab_and_panel sampleDoc "" true 1 (by decide) (by decide) (by decide)
    [3, 1, 3] 2 (mkEl "button" none ["tab"] (some "tools") (some 0) "Outils")
    (by decide) (by decide)

/-- C1, as stated, fails on two pages that meet its contract. On `bothDoc` the only tab
is also a panel: a click on it leaves two panels active, the tab itself and its target.
On `nestedDoc` the guide tab lies inside the status tab: a click on the guide tab bubbles
to the status tab, whose listener runs last, so the status tab and the status panel end
up active instead of the clicked tab and its panel. -/
theorem C1_counterexample :
    (DomContract bothDoc ∧
      activeTabs (click 1 (domContentLoaded (initialPage bothDoc "" true 1))) = [1] ∧
      activePanels (click 1 (domContentLoaded (initialPage bothDoc "" true 1))) = [1, 2]) ∧
    (DomContract nestedDoc ∧
      activeTabs (click 2 (domContentLoaded (initialPage nestedDoc "" true 1))) = [1] ∧
      activePanels (click 2 (domContentLoaded (initialPage nestedDoc "" true 1))) = [3]) := by
  decide

/-- C3 on the sample page, after clicks on status, status, tools, status. -/
theorem C3_witness :
    0 < 1 ∧
    (clicks [3, 3, 2, 3] (domContentLoaded (initialPage sampleDoc "" true 1))).intervals.length
      ≤ 1 ∧
    (∃ h, (click 3 (clicks [3, 3, 2, 3] (domContentLoaded (initialPage sampleDoc "" true 1)))
          ).statusRefreshInterval = some h ∧
        (click 3 (clicks [3, 3, 2, 3] (domContentLoaded (initialPage sampleDoc "" true 1)))
          ).intervals = [⟨h, 30000⟩]) ∧
    (click 2 (clicks [3, 3, 2, 3] (domContentLoaded (initialPage sampleDoc "" true 1)))
      ).statusRefreshInterval = none :=
  ⟨by decide,
   (C3_single_status_timer sampleDoc "" true 1 (by decide) [3, 3, 2, 3]).2.2.1,
   (((C3_single_status_timer sampleDoc "" true 1 (by decide) [3, 3, 2, 3]).2.2.2.2.2
      (by decide)).1 3 (by decide)).1,
   (((C3_single_status_timer sampleDoc "" true 1 (by decide) [3, 3, 2, 3]).2.2.2.2.2
      (by decide)).2 2
      (mkEl "button" none ["tab"] (some "tools") (some 0) "Outils") (by decide) (by decide)).1⟩

/-- C3, as stated, fails on `nestedDoc`, where the guide tab (element 2) lies inside the
status tab (element 1): a click on the guide tab runs its line-125 listener and then
bubbles to the status tab, whose line-115 listener starts an interval. After a click on
this other tab the handle is not `null` and an interval is live, from the initial state
(handle 1) as well as after a click on the status tab (handle 2). -/
theorem C3_counterexample :
    (nestedDoc[2]?.map selTabNotStatus = some true) ∧
    (click 2 (domContentLoaded (initialPage nestedDoc "" true 1))).statusRefreshInterval
      = some 1 ∧
    (click 2 (domContentLoaded (initialPage nestedDoc "" true 1))).intervals
      = [⟨1, 30000⟩] ∧
    (click 2 (click 1 (domContentLoaded (initialPage nestedDoc "" true 1)))
      ).statusRefreshInterval = some 2 ∧
    (click 2 (click 1 (domContentLoaded (initialPage nestedDoc "" true 1)))).intervals
      = [⟨2, 30000⟩] := by
  decide

/-! ## Hash navigation at load, unsupported clipboard, non-success responses -/

/-- C2 (evaluation at the failing input): the sample page loaded with fragment `#status`.
`handleHashNavigation` runs as the second `DOMContentLoaded` listener, before the third
one registers the status listeners, so the status tab and panel become active exactly as
by a click, but no interval is started, whereas a direct click on the status tab of the
loaded page starts one. -/
theorem C2_status_hash_on_load_starts_no_timer :
    activeTabs (domContentLoaded (initialPage sampleDoc "#status" true 1)) = [3] ∧
    activePanels (domContentLoaded (initialPage sampleDoc "#status" true 1)) = [12] ∧
    activeTabs (click 3 (domContentLoaded (initialPage sampleDoc "" true 1))) = [3] ∧
    activePanels (click 3 (domContentLoaded (initialPage sampleDoc "" true 1))) = [12] ∧
    (domContentLoaded (initialPage sampleDoc "#status" true 1)).statusRefreshInterval = none ∧
    (domContentLoaded (initialPage sampleDoc "#status" true 1)).intervals = [] ∧
    (click 3 (domContentLoaded (initialPage sampleDoc "" true 1))).statusRefreshInterval
      = some 1 ∧
    (click 3 (domContentLoaded (initialPage sampleDoc "" true 1))).intervals
      = [⟨1, 30000⟩] ∧
    (hashChange "#status" (domContentLoaded (initialPage sampleDoc "" true 1))
      ).statusRefreshInterval = some 1 := by
  decide

/-- C4 (evaluation at the failing input): with `navigator.clipboard` absent, `copyCode` on
the sample page's copy button ends with a `TypeError` thrown out of `copyCode`; no promise
exists whose `catch` could run the fallback. -/
theorem C4_unsupported_clipboard_throws :
    copyCode 11 { samplePage with clipboardApi := false } = .error "TypeError" := by
  rfl

/-- C5, as stated, fails: for a response whose `ok` flag is false, `refreshStatus`
completes and leaves the page as it was, so no error entry has been logged. -/
theorem C5_counterexample :
    refreshStatus (.response false (.ok "")) samplePage = .ok samplePage ∧
    ¬ ∃ q, refreshStatus (.response false (.ok "")) samplePage = .ok q ∧
      (newEntries samplePage q).any isErrorEntry = true := by
  refine ⟨rfl, ?_⟩
  rintro ⟨q, hq, hlog⟩
  have hs : refreshStatus (.response false (.ok "")) samplePage = .ok samplePage := rfl
  rw [hs] at hq
  have hqe : samplePage = q := by injection hq
  rw [← hqe] at hlog
  revert hlog
  decide

/-- C5 (as the code has it): `refreshStatus` never propagates an error; when `fetch`
rejects, one error entry carrying the failure is logged; when the response is
non-success, nothing is logged and the page is left as it was. -/
theorem C5_refreshStatus_swallows (p : Page) :
    (∀ o, ∃ q, refreshStatus o p = .ok q) ∧
    (∀ error, refreshStatus (.rejected error) p =
      .ok { p with console := p.console ++ [.error "Error refreshing status:" error] }) ∧
    (∀ json, refreshStatus (.response false json) p = .ok p) := by
  refine ⟨?_, ?_, ?_⟩
  · intro o
    cases o with
    | rejected e => exact ⟨_, rfl⟩
    | response ok json =>
      cases ok <;> cases json <;> exact ⟨_, rfl⟩
  · intro e; rfl
  · intro j; rfl

/-- C6, as stated, fails: the sample markup marks the second accordion open, and after
initialisation two accordions are open, the first one of the guide panel and that one. -/
theorem C6_counterexample :
    openAccordions sampleDoc = [7] ∧
    queryGuideAccordion sampleDoc = some 5 ∧
    openAccordions (domContentLoaded (initialPage sampleDoc "" true 1)).elems = [5, 7] := by
  decide

end McpDocs
